import Mathlib

/-! Snake controller.

A shallow embedding of `SnakeController/SnakeController.cpp` together with its two
collaborators, `Snake::World` and `Snake::Segments`.

* The controller's member functions are translated from `SnakeController.cpp`, one Lean
  definition per C++ member function, with the same names.
* `SnakeWorld.hpp` and `SnakeSegments.hpp` only declare the member functions of `World` and
  `Segments`; their bodies are not part of the sources at hand.  The data members are taken
  from the headers, the behaviour of the member functions from sections 4.1 and 4.2 of the
  specification.  Each such definition says so in its doc comment.
* The three output ports are modelled by the list of events sent, in the order of sending,
  each tagged with the port it was sent to.
* `int` coordinates are mathematical integers, as in the specification's data model.
-/

namespace Snake

/-! ## Data model -/

/-- Modelled from the spec: `SnakePosition.hpp` is missing; an integer pair (x, y) with
structural equality. -/
structure Position where
  x : Int
  y : Int
deriving DecidableEq, Repr

/-- The struct `Dimension` of `SnakeDimension.hpp`. -/
structure Dimension where
  width : Int
  height : Int
deriving DecidableEq, Repr

/-- Modelled from the spec: the enumeration `Direction` of the missing `SnakeInterface.hpp`;
the four enumerators are the ones the constructor of the controller assigns. -/
inductive Direction where
  | Direction_UP
  | Direction_DOWN
  | Direction_LEFT
  | Direction_RIGHT
deriving DecidableEq, Repr

/-- Modelled from the spec: the enumeration `Cell` of the missing `SnakeInterface.hpp`; the
three values a display notification can carry. -/
inductive Cell where
  | Cell_FREE
  | Cell_FOOD
  | Cell_SNAKE
deriving DecidableEq, Repr

/-- The events of the system, one constructor per message type named in
`SnakeController.cpp`, each with the payload the controller reads from it or writes to it.
The first five are the kinds `Controller::receive` has a `case` for; the last four are the
message types the controller sends. -/
inductive Event where
  | TimeoutInd
  | DirectionInd (direction : Direction)
  | FoodInd (position : Position)
  | FoodResp (position : Position)
  | PauseInd
  | DisplayInd (position : Position) (value : Cell)
  | FoodReq
  | ScoreInd
  | LooseInd
deriving DecidableEq, Repr

/-- The three ports the controller holds references to. -/
inductive Port where
  | m_displayPort
  | m_foodPort
  | m_scorePort
deriving DecidableEq, Repr

/-- One call of `IPort::send`: the port and the event handed to it. -/
structure Sent where
  port : Port
  event : Event
deriving DecidableEq, Repr

/-- The two exception classes defined in `SnakeController.cpp`. -/
inductive Exception where
  | ConfigurationError
  | UnexpectedEventException
deriving DecidableEq, Repr

/-! ## World -/

/-- The data members of `class World` (`SnakeWorld.hpp`). -/
structure World where
  m_foodPosition : Position
  m_dimension : Dimension
deriving DecidableEq, Repr

/-- Modelled from the spec: the body of `World::setFoodPosition` is missing;
"unconditionally overwrites the stored food position". -/
def World.setFoodPosition (w : World) (position : Position) : World :=
  { w with m_foodPosition := position }

/-- Modelled from the spec: the body of `World::getFoodPosition` is missing; "returns current
food position". -/
def World.getFoodPosition (w : World) : Position :=
  w.m_foodPosition

/-- Modelled from the spec: the body of `World::contains` is missing; "true iff
0 ≤ x < width and 0 ≤ y < height". -/
def World.contains (w : World) (x y : Int) : Bool :=
  decide (0 ≤ x) && decide (x < w.m_dimension.width) &&
    (decide (0 ≤ y) && decide (y < w.m_dimension.height))

/-! ## Segments -/

/-- The data members of `class Segments` (`SnakeSegments.hpp`); the `std::list` is a list
whose first element is the front. -/
structure Segments where
  m_headDirection : Direction
  m_segments : List Position
deriving DecidableEq, Repr

/-- Modelled from the spec: the body of the constructor `Segments::Segments` is missing;
"constructed with an initial heading; begins with an empty body". -/
def Segments.mk0 (direction : Direction) : Segments :=
  { m_headDirection := direction, m_segments := [] }

/-- Modelled from the spec: the body of `Segments::addSegment` is missing; "appends p to the
tail end of the sequence", the sequence having its "head at front, tail at back". -/
def Segments.addSegment (s : Segments) (position : Position) : Segments :=
  { s with m_segments := s.m_segments ++ [position] }

/-- Modelled from the spec: the body of `Segments::isCollision` is missing; "true iff p equals
any position currently occupied by the body". -/
def Segments.isCollision (s : Segments) (position : Position) : Bool :=
  s.m_segments.any (fun segment => decide (segment = position))

/-- Modelled from the spec: the body of `Segments::addHead` is missing; "inserts p as the new
head (front of sequence)". -/
def Segments.addHead (s : Segments) (position : Position) : Segments :=
  { s with m_segments := position :: s.m_segments }

/-- Modelled from the spec: the body of `Segments::nextHead` is missing; "the position
obtained by moving the current head one unit in the current heading (UP: y−1, DOWN: y+1,
LEFT: x−1, RIGHT: x+1)".  There is no current head in an empty body: the result is `none`
there. -/
def Segments.nextHead (s : Segments) : Option Position :=
  match s.m_segments with
  | [] => none
  | currentHead :: _ =>
    match s.m_headDirection with
    | .Direction_UP => some { x := currentHead.x, y := currentHead.y - 1 }
    | .Direction_DOWN => some { x := currentHead.x, y := currentHead.y + 1 }
    | .Direction_LEFT => some { x := currentHead.x - 1, y := currentHead.y }
    | .Direction_RIGHT => some { x := currentHead.x + 1, y := currentHead.y }

/-- Modelled from the spec: the body of `Segments::removeTail` is missing; "removes and
returns the current tail position", the tail being the back of the sequence.  There is no
tail in an empty body: the result is `none` there. -/
def Segments.removeTail (s : Segments) : Option (Position × Segments) :=
  match s.m_segments.getLast? with
  | none => none
  | some tail => some (tail, { s with m_segments := s.m_segments.dropLast })

/-- Modelled from the spec: the body of `Segments::updateDirection` is missing; "sets the
heading used by the next nextHead() call. No validation against the current heading is
performed". -/
def Segments.updateDirection (s : Segments) (newDirection : Direction) : Segments :=
  { s with m_headDirection := newDirection }

/-! ## Controller -/

/-- The mutable members of `class Controller`: the world and the segments it owns and the
paused flag.  The port references never change and are represented by the `Port` tags of the
events sent. -/
structure Controller where
  m_world : World
  m_segments : Segments
  m_paused : Bool
deriving DecidableEq, Repr

/-- The method `Controller::sendPlaceNewFood`. -/
def Controller.sendPlaceNewFood (c : Controller) (position : Position) :
    Controller × List Sent :=
  ({ c with m_world := c.m_world.setFoodPosition position },
    [⟨.m_displayPort, .DisplayInd position .Cell_FOOD⟩])

/-- The method `Controller::sendClearOldFood`. -/
def Controller.sendClearOldFood (c : Controller) : Controller × List Sent :=
  (c, [⟨.m_displayPort, .DisplayInd c.m_world.getFoodPosition .Cell_FREE⟩])

/-- The method `Controller::removeTailSegment`; `none` when `removeTail` has no tail to
remove. -/
def Controller.removeTailSegment (c : Controller) : Option (Controller × List Sent) :=
  match c.m_segments.removeTail with
  | none => none
  | some (tail, segments) =>
    some ({ c with m_segments := segments }, [⟨.m_displayPort, .DisplayInd tail .Cell_FREE⟩])

/-- The method `Controller::addHeadSegment`. -/
def Controller.addHeadSegment (c : Controller) (position : Position) :
    Controller × List Sent :=
  ({ c with m_segments := c.m_segments.addHead position },
    [⟨.m_displayPort, .DisplayInd position .Cell_SNAKE⟩])

/-- The method `Controller::removeTailSegmentIfNotScored`. -/
def Controller.removeTailSegmentIfNotScored (c : Controller) (position : Position) :
    Option (Controller × List Sent) :=
  if position = c.m_world.getFoodPosition then
    some (c, [⟨.m_scorePort, .ScoreInd⟩, ⟨.m_foodPort, .FoodReq⟩])
  else
    c.removeTailSegment

/-- The method `Controller::updateSegmentsIfSuccessfullMove`. -/
def Controller.updateSegmentsIfSuccessfullMove (c : Controller) (position : Position) :
    Option (Controller × List Sent) :=
  if c.m_segments.isCollision position || !c.m_world.contains position.x position.y then
    some (c, [⟨.m_scorePort, .LooseInd⟩])
  else
    match (c.addHeadSegment position).1.removeTailSegmentIfNotScored position with
    | none => none
    | some (c2, sent2) => some (c2, (c.addHeadSegment position).2 ++ sent2)

/-- The method `Controller::handleTimeoutInd`; `none` when `nextHead` has no head to start
from. -/
def Controller.handleTimeoutInd (c : Controller) : Option (Controller × List Sent) :=
  match c.m_segments.nextHead with
  | none => none
  | some newHead => c.updateSegmentsIfSuccessfullMove newHead

/-- The method `Controller::handleDirectionInd`, applied to the payload of the event. -/
def Controller.handleDirectionInd (c : Controller) (direction : Direction) :
    Controller × List Sent :=
  ({ c with m_segments := c.m_segments.updateDirection direction }, [])

/-- The method `Controller::updateFoodPosition`; `clearPolicy` is the callback. -/
def Controller.updateFoodPosition (c : Controller) (position : Position)
    (clearPolicy : Controller → Controller × List Sent) : Controller × List Sent :=
  if c.m_segments.isCollision position || !c.m_world.contains position.x position.y then
    (c, [⟨.m_foodPort, .FoodReq⟩])
  else
    (((clearPolicy c).1.sendPlaceNewFood position).1,
      (clearPolicy c).2 ++ ((clearPolicy c).1.sendPlaceNewFood position).2)

/-- The method `Controller::handleFoodInd`, applied to the payload of the event. -/
def Controller.handleFoodInd (c : Controller) (position : Position) : Controller × List Sent :=
  c.updateFoodPosition position Controller.sendClearOldFood

/-- The method `Controller::handleFoodResp`, applied to the payload of the event; the callback
is the empty lambda. -/
def Controller.handleFoodResp (c : Controller) (position : Position) : Controller × List Sent :=
  c.updateFoodPosition position (fun c1 => (c1, []))

/-- The method `Controller::handlePauseInd`. -/
def Controller.handlePauseInd (c : Controller) : Controller × List Sent :=
  ({ c with m_paused := !c.m_paused }, [])

/-- How a call of `Controller::receive` ends: it returns, it throws, or it runs into the
front or back of an empty `std::list`.  The first two carry the state of the controller and
the events sent up to that point. -/
inductive Outcome where
  | returned (c : Controller) (sent : List Sent)
  | threw (ex : Exception) (c : Controller) (sent : List Sent)
  | undefinedBehaviour
deriving DecidableEq, Repr

/-- Lift the result of a handler that may run into an empty list. -/
def Outcome.ofOption : Option (Controller × List Sent) → Outcome
  | none => .undefinedBehaviour
  | some (c, sent) => .returned c sent

/-- The method `Controller::receive`: the `switch` over the message id. -/
def Controller.receive (c : Controller) (e : Event) : Outcome :=
  match e with
  | .TimeoutInd =>
    if !c.m_paused then Outcome.ofOption c.handleTimeoutInd else .returned c []
  | .DirectionInd direction =>
    if !c.m_paused then
      .returned (c.handleDirectionInd direction).1 (c.handleDirectionInd direction).2
    else .returned c []
  | .FoodInd position => .returned (c.handleFoodInd position).1 (c.handleFoodInd position).2
  | .FoodResp position => .returned (c.handleFoodResp position).1 (c.handleFoodResp position).2
  | .PauseInd => .returned c.handlePauseInd.1 c.handlePauseInd.2
  | _ => .threw .UnexpectedEventException c []

/-! ## Vocabulary of the properties -/

/-- The position is one of the body's segments. -/
def occupied (c : Controller) (p : Position) : Prop :=
  p ∈ c.m_segments.m_segments

/-- The position lies in `[0,width) x [0,height)`. -/
def inBounds (c : Controller) (p : Position) : Prop :=
  0 ≤ p.x ∧ p.x < c.m_world.m_dimension.width ∧ 0 ≤ p.y ∧ p.y < c.m_world.m_dimension.height

instance (c : Controller) (p : Position) : Decidable (occupied c p) := by
  unfold occupied; infer_instance

instance (c : Controller) (p : Position) : Decidable (inBounds c p) := by
  unfold inBounds; infer_instance

/-- The loss notification: a `LooseInd` on the score port. -/
def lossNotification : Sent := ⟨.m_scorePort, .LooseInd⟩

/-- The score notification: a `ScoreInd` on the score port. -/
def scoreNotification : Sent := ⟨.m_scorePort, .ScoreInd⟩

/-- The food request: a `FoodReq` on the food port. -/
def foodRequest : Sent := ⟨.m_foodPort, .FoodReq⟩

/-- A display notification: a `DisplayInd` with the cell and the value on the display port. -/
def displayNotification (p : Position) (value : Cell) : Sent :=
  ⟨.m_displayPort, .DisplayInd p value⟩

/-! ## Example states -/

/-- A 5x5 world with the food at (3,3). -/
def exampleWorld : World :=
  { m_foodPosition := { x := 3, y := 3 }, m_dimension := { width := 5, height := 5 } }

/-- The running controller over `exampleWorld`, heading RIGHT, whose body is built by
`addSegment((1,1))` and then `addSegment((2,1))`. -/
def exampleAdded12 : Controller :=
  { m_world := exampleWorld,
    m_segments :=
      ((Segments.mk0 .Direction_RIGHT).addSegment { x := 1, y := 1 }).addSegment
        { x := 2, y := 1 },
    m_paused := false }

/-- The running controller over `exampleWorld`, heading RIGHT, whose body is built by
`addSegment((2,1))` and then `addSegment((1,1))`: head (2,1), tail (1,1). -/
def exampleAdded21 : Controller :=
  { m_world := exampleWorld,
    m_segments :=
      ((Segments.mk0 .Direction_RIGHT).addSegment { x := 2, y := 1 }).addSegment
        { x := 1, y := 1 },
    m_paused := false }

/-- The running controller over `exampleWorld`, heading RIGHT, with head (2,3) and tail
(1,3): the next head is the food cell. -/
def exampleBeforeFood : Controller :=
  { m_world := exampleWorld,
    m_segments :=
      ((Segments.mk0 .Direction_RIGHT).addSegment { x := 2, y := 3 }).addSegment
        { x := 1, y := 3 },
    m_paused := false }

/-! ## Configuration stream

The constructor reads its configuration through a `std::istringstream`.  The stream is
modelled by the characters not yet consumed and its fail flag, and the two formatted
extractions the constructor uses follow the C++ library: both skip leading white space, both
do nothing on a stream that has already failed, and a variable that an extraction does not
write keeps its previous, here uninitialised, content (`none`). -/

/-- The input stream: characters still to be read and the fail flag. -/
structure IStream where
  rest : List Char
  failbit : Bool
deriving DecidableEq, Repr

/-- White space of the C locale: space, and the five characters from tab to carriage
return. -/
def isspace (ch : Char) : Bool :=
  ch.toNat == 32 || (decide (9 ≤ ch.toNat) && decide (ch.toNat ≤ 13))

/-- Decimal digit. -/
def isdigit (ch : Char) : Bool :=
  decide (48 ≤ ch.toNat) && decide (ch.toNat ≤ 57)

/-- Largest value of `int`. -/
def INT_MAX : Int := 2147483647

/-- Smallest value of `int`. -/
def INT_MIN : Int := -2147483648

/-- The number written by a sequence of decimal digits. -/
def digitsValue (ds : List Char) : Nat :=
  ds.foldl (fun acc ch => 10 * acc + (ch.toNat - 48)) 0

/-- The extraction `istr >> ch` for a `char`: the first character after the white space; at
the end of the input the stream fails and the variable is not written. -/
def IStream.extractChar (istr : IStream) : IStream × Option Char :=
  if istr.failbit then (istr, none)
  else
    match istr.rest.dropWhile isspace with
    | [] => ({ rest := [], failbit := true }, none)
    | ch :: tl => ({ rest := tl, failbit := false }, some ch)

/-- The extraction `istr >> n` for an `int`: after the white space an optional sign and the
longest run of decimal digits.  At the end of the input the stream fails and the variable is
not written; without a digit the stream fails and 0 is written; a value outside the range of
`int` makes the stream fail and writes the nearest bound. -/
def IStream.extractInt (istr : IStream) : IStream × Option Int :=
  if istr.failbit then (istr, none)
  else
    match istr.rest.dropWhile isspace with
    | [] => ({ rest := [], failbit := true }, none)
    | ch :: tl =>
      let negative : Bool := ch == '-'
      let signed : Bool := ch == '-' || ch == '+'
      let numeral : List Char := if signed then tl else ch :: tl
      let digits : List Char := numeral.takeWhile isdigit
      let after : List Char := numeral.dropWhile isdigit
      let value : Int := if negative then -(digitsValue digits : Int) else (digitsValue digits : Int)
      if digits.isEmpty then ({ rest := after, failbit := true }, some 0)
      else if INT_MAX < value then ({ rest := after, failbit := true }, some INT_MAX)
      else if value < INT_MIN then ({ rest := after, failbit := true }, some INT_MIN)
      else ({ rest := after, failbit := false }, some value)

/-! ## Construction -/

/-- How the constructor ends: with a controller, with an exception, or by reading a variable
no extraction has written (or by counting `length` down from a negative value). -/
inductive Construction where
  | constructed (c : Controller)
  | threw (ex : Exception)
  | undefinedBehaviour
deriving DecidableEq, Repr

/-- Modelled from the spec: the body of the constructor `World::World` is missing; the world
"owns one Dimension (fixed at construction) and one Position (current food location)". -/
def World.mk0 (dimension : Dimension) (food : Position) : World :=
  { m_foodPosition := food, m_dimension := dimension }

/-- The loop `while (length--) { int x, y; istr >> x >> y; m_segments->addSegment(...); }` of
the constructor, for a `length` that is not negative; `none` when `x` or `y` is read without
having been written. -/
def readSegments : Nat → IStream → Segments → Option Segments
  | 0, _, segments => some segments
  | length + 1, istr, segments =>
    match istr.extractInt.2, istr.extractInt.1.extractInt.2 with
    | some x, some y =>
      readSegments length istr.extractInt.1.extractInt.1 (segments.addSegment { x := x, y := y })
    | _, _ => none

/-- The part of the constructor after the heading has been decided: create the segments, read
`length`, run the loop. -/
def constructSegments (world : World) (startDirection : Direction) (istr : IStream) :
    Construction :=
  match istr.extractInt.2 with
  | none => .undefinedBehaviour
  | some length =>
    if length < 0 then .undefinedBehaviour
    else
      match readSegments length.toNat istr.extractInt.1 (Segments.mk0 startDirection) with
      | none => .undefinedBehaviour
      | some segments =>
        .constructed { m_world := world, m_segments := segments, m_paused := false }

/-- The `switch (d)` of the constructor; `none` is the `default` arm. -/
def startDirectionOf (d : Char) : Option Direction :=
  if d = 'U' then some .Direction_UP
  else if d = 'D' then some .Direction_DOWN
  else if d = 'L' then some .Direction_LEFT
  else if d = 'R' then some .Direction_RIGHT
  else none

/-- The constructor `Controller::Controller`, applied to the configuration string (a type and
a function inside it cannot share a name here, hence `construct`). -/
def Controller.construct (p_config : String) : Construction :=
  let istr0 : IStream := { rest := p_config.toList, failbit := false }
  let rw := istr0.extractChar
  let rwidth := rw.1.extractInt
  let rheight := rwidth.1.extractInt
  let rf := rheight.1.extractChar
  let rfoodX := rf.1.extractInt
  let rfoodY := rfoodX.1.extractInt
  let rs := rfoodY.1.extractChar
  match rw.2 with
  | none => .undefinedBehaviour
  | some w =>
    if w ≠ 'W' then .threw .ConfigurationError
    else
      match rf.2 with
      | none => .undefinedBehaviour
      | some f =>
        if f ≠ 'F' then .threw .ConfigurationError
        else
          match rs.2 with
          | none => .undefinedBehaviour
          | some s =>
            if s ≠ 'S' then .threw .ConfigurationError
            else
              match rwidth.2, rheight.2, rfoodX.2, rfoodY.2 with
              | some width, some height, some foodX, some foodY =>
                let world := World.mk0 { width := width, height := height }
                  { x := foodX, y := foodY }
                let rd := rs.1.extractChar
                match rd.2 with
                | none => .undefinedBehaviour
                | some d =>
                  match startDirectionOf d with
                  | none => .threw .ConfigurationError
                  | some startDirection => constructSegments world startDirection rd.1
              | _, _, _, _ => .undefinedBehaviour

/-! ## Sequences of events -/

/-- The event is one the `switch` of `receive` has a `case` for. -/
def Event.recognised : Event → Bool
  | .TimeoutInd => true
  | .DirectionInd _ => true
  | .FoodInd _ => true
  | .FoodResp _ => true
  | .PauseInd => true
  | _ => false

/-- The position one unit from `p` in direction `d` (UP: y-1, DOWN: y+1, LEFT: x-1,
RIGHT: x+1). -/
def neighbour (d : Direction) (p : Position) : Position :=
  match d with
  | .Direction_UP => { x := p.x, y := p.y - 1 }
  | .Direction_DOWN => { x := p.x, y := p.y + 1 }
  | .Direction_LEFT => { x := p.x - 1, y := p.y }
  | .Direction_RIGHT => { x := p.x + 1, y := p.y }

/-- The dispatcher delivering the events one at a time: `receive` is called for each event in
turn on the state the previous call left, the events sent are collected in order, and the
delivery stops at the first call that does not return. -/
def Controller.run (c : Controller) : List Event → Outcome
  | [] => .returned c []
  | e :: events =>
    match c.receive e with
    | .returned c1 sent1 =>
      match c1.run events with
      | .returned c2 sent2 => .returned c2 (sent1 ++ sent2)
      | .threw ex c2 sent2 => .threw ex c2 (sent1 ++ sent2)
      | .undefinedBehaviour => .undefinedBehaviour
    | .threw ex c1 sent1 => .threw ex c1 sent1
    | .undefinedBehaviour => .undefinedBehaviour

/-- Five Timeouts with three turns in between: from head (2,3) heading RIGHT onto (3,3), on to
(4,3), down to (4,4), left to (3,4) and up to (3,3) again. -/
def exampleCircle : List Event :=
  [.TimeoutInd, .TimeoutInd, .DirectionInd .Direction_DOWN, .TimeoutInd,
    .DirectionInd .Direction_LEFT, .TimeoutInd, .DirectionInd .Direction_UP, .TimeoutInd]

/-! ## Well-formed configurations -/

/-- The decimal numeral of an integer: a minus sign for a negative number, then the decimal
digits of the absolute value. -/
def renderInt (v : Int) : List Char :=
  if v < 0 then '-' :: Nat.toDigits 10 v.natAbs else Nat.toDigits 10 v.natAbs

/-- The heading character of a direction. -/
def headingChar : Direction → Char
  | .Direction_UP => 'U'
  | .Direction_DOWN => 'D'
  | .Direction_LEFT => 'L'
  | .Direction_RIGHT => 'R'

/-- The segments of a configuration: each one as a blank, `x`, a blank, `y`. -/
def renderSegments : List Position → List Char
  | [] => []
  | p :: tl => ' ' :: renderInt p.x ++ ' ' :: renderInt p.y ++ renderSegments tl

/-- The head of a configuration, with single blanks between the items: bounds marker, width,
height, food marker, food x, food y, score marker, heading character; then whatever
follows. -/
def renderHeader (w : Char) (width height : Int) (f : Char) (foodX foodY : Int) (s d : Char)
    (rest : List Char) : String :=
  String.mk (w :: ' ' :: renderInt width ++ ' ' :: renderInt height ++ ' ' :: f :: ' ' ::
    renderInt foodX ++ ' ' :: renderInt foodY ++ ' ' :: s :: ' ' :: d :: rest)

/-- The configuration `W width height F foodX foodY S d n x1 y1 ... xn yn`, with `n` the
number of segments listed. -/
def renderConfig (width height foodX foodY : Int) (d : Direction) (segments : List Position) :
    String :=
  renderHeader 'W' width height 'F' foodX foodY 'S' (headingChar d)
    (' ' :: renderInt segments.length ++ renderSegments segments)

/-- The value fits an `int`. -/
def isInt (v : Int) : Prop := INT_MIN ≤ v ∧ v ≤ INT_MAX

instance (v : Int) : Decidable (isInt v) := by
  unfold isInt; infer_instance

/-! ## Helper lemmas -/

theorem isCollision_eq_true_iff (s : Segments) (p : Position) :
    s.isCollision p = true ↔ p ∈ s.m_segments := by
  simp [Segments.isCollision, List.any_eq_true]

theorem contains_eq_true_iff (w : World) (x y : Int) :
    w.contains x y = true ↔
      (0 ≤ x ∧ x < w.m_dimension.width ∧ 0 ≤ y ∧ y < w.m_dimension.height) := by
  simp [World.contains, and_assoc]

theorem rejects_iff (c : Controller) (p : Position) :
    (c.m_segments.isCollision p || !c.m_world.contains p.x p.y) = true ↔
      (occupied c p ∨ ¬ inBounds c p) := by
  rw [Bool.or_eq_true, isCollision_eq_true_iff, Bool.not_eq_true', ← Bool.not_eq_true,
    contains_eq_true_iff]
  rfl

theorem nextHead_isSome_of_ne_nil (s : Segments) (h : s.m_segments ≠ []) :
    ∃ p, s.nextHead = some p := by
  obtain ⟨d, body⟩ := s
  cases body with
  | nil => exact absurd rfl h
  | cons hd tl => cases d <;> exact ⟨_, rfl⟩

theorem rejects_eq_false (c : Controller) (p : Position)
    (hfree : ¬ occupied c p) (hin : inBounds c p) :
    (c.m_segments.isCollision p || !c.m_world.contains p.x p.y) = false := by
  rw [← Bool.not_eq_true, rejects_iff]
  tauto

theorem removeTail_addHead (s : Segments) (p : Position) (hne : s.m_segments ≠ []) :
    (s.addHead p).removeTail =
      some (s.m_segments.getLast hne,
        { s with m_segments := p :: s.m_segments.dropLast }) := by
  obtain ⟨d, body⟩ := s
  cases body with
  | nil => exact absurd rfl hne
  | cons hd tl =>
    simp [Segments.addHead, Segments.removeTail, List.getLast?_cons_cons,
      List.getLast?_eq_getLast, List.dropLast]

/-! ## Timeout -/

/-- C1: in a running controller with a non-empty body, a Timeout whose candidate head is
occupied by the body or lies outside the world sends exactly one event, the loss notification,
and leaves the whole state (body, heading, food position, paused flag) as it was. -/
theorem C1_timeout_rejected_move_sends_loss (c : Controller) (nh : Position)
    (hrun : c.m_paused = false) (hne : c.m_segments.m_segments ≠ [])
    (hnh : c.m_segments.nextHead = some nh)
    (hbad : occupied c nh ∨ ¬ inBounds c nh) :
    c.receive .TimeoutInd = .returned c [lossNotification] := by
  have _ := hne
  have hrej := (rejects_iff c nh).2 hbad
  simp only [Controller.receive, hrun, Bool.not_false, if_true, Controller.handleTimeoutInd,
    hnh, Controller.updateSegmentsIfSuccessfullMove, hrej, Outcome.ofOption, lossNotification]

/-- C2: in a running controller with a non-empty body, a Timeout whose candidate head is free,
inside the world and equal to the stored food position puts the candidate in front of the old
body (one segment more, the tail kept) and sends exactly three events in this order: the
snake cell for the new head, one score notification, one food request.  Heading, world and
paused flag stay as they were. -/
theorem C2_timeout_onto_food_grows (c : Controller) (nh : Position)
    (hrun : c.m_paused = false) (hne : c.m_segments.m_segments ≠ [])
    (hnh : c.m_segments.nextHead = some nh)
    (hfree : ¬ occupied c nh) (hin : inBounds c nh)
    (hfood : nh = c.m_world.getFoodPosition) :
    c.receive .TimeoutInd =
        .returned
          { c with m_segments :=
              { c.m_segments with m_segments := nh :: c.m_segments.m_segments } }
          [displayNotification nh .Cell_SNAKE, scoreNotification, foodRequest] ∧
      (nh :: c.m_segments.m_segments).length = c.m_segments.m_segments.length + 1 ∧
      (nh :: c.m_segments.m_segments).getLast? = c.m_segments.m_segments.getLast? := by
  have hrej := rejects_eq_false c nh hfree hin
  refine ⟨?_, rfl, ?_⟩
  · simp only [Controller.receive, hrun, Bool.not_false, if_true, Controller.handleTimeoutInd,
      hnh, Controller.updateSegmentsIfSuccessfullMove, hrej, Controller.addHeadSegment,
      Controller.removeTailSegmentIfNotScored, ← hfood, Outcome.ofOption, Segments.addHead,
      displayNotification, scoreNotification, foodRequest]
    simp
  · cases hb : c.m_segments.m_segments with
    | nil => exact absurd hb hne
    | cons hd tl => simp [List.getLast?_cons_cons]

/-- C3: in a running controller with a non-empty body, a Timeout whose candidate head is free,
inside the world and different from the stored food position puts the candidate in front of
the old body without its last element (same length) and sends exactly two events: first the
snake cell for the new head, then the free cell for the old tail.  Heading, world and paused
flag stay as they were. -/
theorem C3_timeout_plain_move_shifts (c : Controller) (nh : Position)
    (hrun : c.m_paused = false) (hne : c.m_segments.m_segments ≠ [])
    (hnh : c.m_segments.nextHead = some nh)
    (hfree : ¬ occupied c nh) (hin : inBounds c nh)
    (hfood : nh ≠ c.m_world.getFoodPosition) :
    c.receive .TimeoutInd =
        .returned
          { c with m_segments :=
              { c.m_segments with m_segments := nh :: c.m_segments.m_segments.dropLast } }
          [displayNotification nh .Cell_SNAKE,
            displayNotification (c.m_segments.m_segments.getLast hne) .Cell_FREE] ∧
      (nh :: c.m_segments.m_segments.dropLast).length = c.m_segments.m_segments.length := by
  have hrej := rejects_eq_false c nh hfree hin
  constructor
  · simp only [Controller.receive, hrun, Bool.not_false, if_true, Controller.handleTimeoutInd,
      hnh, Controller.updateSegmentsIfSuccessfullMove, hrej, Controller.addHeadSegment,
      Controller.removeTailSegmentIfNotScored, Controller.removeTailSegment,
      removeTail_addHead c.m_segments nh hne, hfood, Outcome.ofOption,
      displayNotification]
    simp
  · have hpos : 0 < c.m_segments.m_segments.length := List.length_pos.2 hne
    simp only [List.length_cons, List.length_dropLast]
    omega

/-- Witness of C1: heading RIGHT with body front-to-back (1,1), (2,1), the candidate (2,1) is
occupied. -/
theorem C1_timeout_rejected_move_sends_loss_witness :
    exampleAdded12.m_paused = false ∧ exampleAdded12.m_segments.m_segments ≠ [] ∧
      exampleAdded12.m_segments.nextHead = some { x := 2, y := 1 } ∧
      (occupied exampleAdded12 { x := 2, y := 1 } ∨ ¬ inBounds exampleAdded12 { x := 2, y := 1 }) ∧
      exampleAdded12.receive .TimeoutInd = .returned exampleAdded12 [lossNotification] :=
  ⟨rfl, by decide, rfl, by decide,
    C1_timeout_rejected_move_sends_loss exampleAdded12 { x := 2, y := 1 } rfl (by decide) rfl
      (by decide)⟩

/-- Witness of C2: head (2,3), tail (1,3), heading RIGHT, food at (3,3). -/
theorem C2_timeout_onto_food_grows_witness :
    exampleBeforeFood.receive .TimeoutInd =
        .returned
          { exampleBeforeFood with m_segments :=
              { exampleBeforeFood.m_segments with
                m_segments := { x := 3, y := 3 } :: exampleBeforeFood.m_segments.m_segments } }
          [displayNotification { x := 3, y := 3 } .Cell_SNAKE, scoreNotification, foodRequest] ∧
      (({ x := 3, y := 3 } : Position) :: exampleBeforeFood.m_segments.m_segments).length =
        exampleBeforeFood.m_segments.m_segments.length + 1 ∧
      (({ x := 3, y := 3 } : Position) :: exampleBeforeFood.m_segments.m_segments).getLast? =
        exampleBeforeFood.m_segments.m_segments.getLast? :=
  C2_timeout_onto_food_grows exampleBeforeFood { x := 3, y := 3 } rfl (by decide) rfl
    (by decide) (by decide) rfl

/-- Witness of C3: head (2,1), tail (1,1), heading RIGHT, food at (3,3). -/
theorem C3_timeout_plain_move_shifts_witness :
    exampleAdded21.receive .TimeoutInd =
        .returned
          { exampleAdded21 with m_segments :=
              { exampleAdded21.m_segments with
                m_segments :=
                  { x := 3, y := 1 } :: exampleAdded21.m_segments.m_segments.dropLast } }
          [displayNotification { x := 3, y := 1 } .Cell_SNAKE,
            displayNotification
              (exampleAdded21.m_segments.m_segments.getLast (by decide)) .Cell_FREE] ∧
      (({ x := 3, y := 1 } : Position) :: exampleAdded21.m_segments.m_segments.dropLast).length =
        exampleAdded21.m_segments.m_segments.length :=
  C3_timeout_plain_move_shifts exampleAdded21 { x := 3, y := 1 } rfl (by decide) rfl
    (by decide) (by decide) (by decide)

/-- C4, as stated, fails: with the body built by `addSegment((1,1))` and then
`addSegment((2,1))` the Timeout does not send the free cell (1,1) followed by the snake cell
(3,1) and does not leave the body (2,1), (3,1); and with head (2,1) and tail (1,1) the two
display events are not sent in the order free cell, snake cell either. -/
theorem C4_example_as_stated_fails :
    (¬ (exampleAdded12.m_segments.nextHead = some { x := 3, y := 1 } ∧
        ∃ c1, exampleAdded12.receive .TimeoutInd =
            .returned c1 [displayNotification { x := 1, y := 1 } .Cell_FREE,
              displayNotification { x := 3, y := 1 } .Cell_SNAKE] ∧
          c1.m_segments.m_segments = [{ x := 2, y := 1 }, { x := 3, y := 1 }])) ∧
      (¬ (exampleAdded21.m_segments.nextHead = some { x := 3, y := 1 } ∧
        ∃ c1, exampleAdded21.receive .TimeoutInd =
            .returned c1 [displayNotification { x := 1, y := 1 } .Cell_FREE,
              displayNotification { x := 3, y := 1 } .Cell_SNAKE] ∧
          c1.m_segments.m_segments = [{ x := 2, y := 1 }, { x := 3, y := 1 }])) := by
  have h12 : exampleAdded12.receive .TimeoutInd = .returned exampleAdded12 [lossNotification] := by
    decide
  have h21 : exampleAdded21.receive .TimeoutInd =
      .returned
        { exampleAdded21 with m_segments :=
            { m_headDirection := .Direction_RIGHT,
              m_segments := [{ x := 3, y := 1 }, { x := 2, y := 1 }] } }
        [displayNotification { x := 3, y := 1 } .Cell_SNAKE,
          displayNotification { x := 1, y := 1 } .Cell_FREE] := by
    decide
  constructor
  · rintro ⟨_, c1, h, _⟩
    rw [h12] at h
    injection h with _ hsent
    revert hsent
    decide
  · rintro ⟨_, c1, h, _⟩
    rw [h21] at h
    injection h with _ hsent
    revert hsent
    decide

/-- C4, amended: in the 5x5 world with food at (3,3), heading RIGHT, not paused.
(a) `addSegment` appends at the tail end, so the body built by `addSegment((1,1))` and then
`addSegment((2,1))` has head (1,1) and tail (2,1); the Timeout computes the candidate (2,1),
which the body occupies, sends one loss notification and changes nothing.
(b) With head (2,1) and tail (1,1), built by `addSegment((2,1))` and then
`addSegment((1,1))`, the Timeout computes the new head (3,1), sends the snake cell (3,1) and
then the free cell (1,1), and leaves the body head (3,1), tail (2,1). -/
theorem C4_example_amended :
    exampleAdded12.m_segments.m_segments = [{ x := 1, y := 1 }, { x := 2, y := 1 }] ∧
      exampleAdded12.m_segments.nextHead = some { x := 2, y := 1 } ∧
      exampleAdded12.receive .TimeoutInd = .returned exampleAdded12 [lossNotification] ∧
      exampleAdded21.m_segments.m_segments = [{ x := 2, y := 1 }, { x := 1, y := 1 }] ∧
      exampleAdded21.m_segments.nextHead = some { x := 3, y := 1 } ∧
      exampleAdded21.receive .TimeoutInd =
        .returned
          { m_world := exampleWorld,
            m_segments :=
              { m_headDirection := .Direction_RIGHT,
                m_segments := [{ x := 3, y := 1 }, { x := 2, y := 1 }] },
            m_paused := false }
          [displayNotification { x := 3, y := 1 } .Cell_SNAKE,
            displayNotification { x := 1, y := 1 } .Cell_FREE] := by
  refine ⟨rfl, rfl, ?_, rfl, rfl, ?_⟩ <;> decide

/-! ## Food -/

/-- C5: in any state, paused or not, a food indication or a food response whose position is
occupied by the body or lies outside the world sends exactly one event, a food request (so no
display event), and leaves the whole state as it was. -/
theorem C5_invalid_food_requests_again (c : Controller) (p : Position)
    (hbad : occupied c p ∨ ¬ inBounds c p) :
    c.receive (.FoodInd p) = .returned c [foodRequest] ∧
      c.receive (.FoodResp p) = .returned c [foodRequest] := by
  have hrej := (rejects_iff c p).2 hbad
  constructor <;>
    simp only [Controller.receive, Controller.handleFoodInd, Controller.handleFoodResp,
      Controller.updateFoodPosition, hrej, if_true, foodRequest]

/-- Witness of C5: the proposed cell (2,1) is the head of the snake. -/
theorem C5_invalid_food_requests_again_witness :
    (occupied exampleAdded21 { x := 2, y := 1 } ∨ ¬ inBounds exampleAdded21 { x := 2, y := 1 }) ∧
      exampleAdded21.receive (.FoodInd { x := 2, y := 1 }) =
        .returned exampleAdded21 [foodRequest] ∧
      exampleAdded21.receive (.FoodResp { x := 2, y := 1 }) =
        .returned exampleAdded21 [foodRequest] :=
  ⟨by decide, C5_invalid_food_requests_again exampleAdded21 { x := 2, y := 1 } (by decide)⟩

/-- C6: in any state, paused or not, a food indication whose position is inside the world and
not occupied by the body sends exactly two events in this order: the free cell for the
previously stored food position, then the food cell for the new position; afterwards the
stored food position is the new one, and dimension, body, heading and paused flag are as they
were. -/
theorem C6_valid_food_indication_replaces (c : Controller) (p : Position)
    (hfree : ¬ occupied c p) (hin : inBounds c p) :
    c.receive (.FoodInd p) =
      .returned
        { c with m_world := { c.m_world with m_foodPosition := p } }
        [displayNotification c.m_world.m_foodPosition .Cell_FREE,
          displayNotification p .Cell_FOOD] := by
  have hrej := rejects_eq_false c p hfree hin
  simp only [Controller.receive, Controller.handleFoodInd, Controller.updateFoodPosition, hrej,
    Controller.sendClearOldFood, Controller.sendPlaceNewFood, World.setFoodPosition,
    World.getFoodPosition, displayNotification]
  simp

/-- Witness of C6: the free cell (4,4) replaces the food at (3,3). -/
theorem C6_valid_food_indication_replaces_witness :
    ¬ occupied exampleAdded21 { x := 4, y := 4 } ∧ inBounds exampleAdded21 { x := 4, y := 4 } ∧
      exampleAdded21.receive (.FoodInd { x := 4, y := 4 }) =
        .returned
          { exampleAdded21 with
            m_world := { exampleAdded21.m_world with m_foodPosition := { x := 4, y := 4 } } }
          [displayNotification exampleAdded21.m_world.m_foodPosition .Cell_FREE,
            displayNotification { x := 4, y := 4 } .Cell_FOOD] :=
  ⟨by decide, by decide,
    C6_valid_food_indication_replaces exampleAdded21 { x := 4, y := 4 } (by decide) (by decide)⟩

/-- C7: in any state, paused or not, a food response whose position is inside the world and
not occupied by the body sends exactly one event, the food cell for the new position, and no
free cell for the previous food position; afterwards the stored food position is the new one,
and dimension, body, heading and paused flag are as they were. -/
theorem C7_valid_food_response_places (c : Controller) (p : Position)
    (hfree : ¬ occupied c p) (hin : inBounds c p) :
    c.receive (.FoodResp p) =
      .returned
        { c with m_world := { c.m_world with m_foodPosition := p } }
        [displayNotification p .Cell_FOOD] := by
  have hrej := rejects_eq_false c p hfree hin
  simp only [Controller.receive, Controller.handleFoodResp, Controller.updateFoodPosition, hrej,
    Controller.sendPlaceNewFood, World.setFoodPosition, displayNotification]
  simp

/-- Witness of C7: the free cell (4,4) becomes the food. -/
theorem C7_valid_food_response_places_witness :
    ¬ occupied exampleBeforeFood { x := 4, y := 4 } ∧
      inBounds exampleBeforeFood { x := 4, y := 4 } ∧
      exampleBeforeFood.receive (.FoodResp { x := 4, y := 4 }) =
        .returned
          { exampleBeforeFood with
            m_world := { exampleBeforeFood.m_world with m_foodPosition := { x := 4, y := 4 } } }
          [displayNotification { x := 4, y := 4 } .Cell_FOOD] :=
  ⟨by decide, by decide,
    C7_valid_food_response_places exampleBeforeFood { x := 4, y := 4 } (by decide) (by decide)⟩

/-! ## Pause and dispatch -/

/-- C8: in any state a Pause event flips the paused flag, sends nothing and leaves body,
heading and world as they were; a second Pause event then gives back exactly the original
state, again sending nothing. -/
theorem C8_pause_toggles (c : Controller) :
    c.receive .PauseInd = .returned { c with m_paused := !c.m_paused } [] ∧
      ({ c with m_paused := !c.m_paused } : Controller).receive .PauseInd = .returned c [] := by
  obtain ⟨w, s, b⟩ := c
  cases b <;> exact ⟨rfl, rfl⟩

/-- C9: in any paused state a Timeout event and a Direction event with any heading send
nothing and leave the whole state (body, heading, food position, paused flag) as it was. -/
theorem C9_paused_drops_timeout_and_direction (c : Controller) (hpaused : c.m_paused = true) :
    c.receive .TimeoutInd = .returned c [] ∧
      ∀ d : Direction, c.receive (.DirectionInd d) = .returned c [] := by
  refine ⟨?_, fun d => ?_⟩ <;> simp [Controller.receive, hpaused]

/-- Witness of C9: the paused variant of an example state. -/
theorem C9_paused_drops_timeout_and_direction_witness :
    ({ exampleAdded21 with m_paused := true } : Controller).m_paused = true ∧
      ({ exampleAdded21 with m_paused := true } : Controller).receive .TimeoutInd =
        .returned { exampleAdded21 with m_paused := true } [] ∧
      ∀ d : Direction,
        ({ exampleAdded21 with m_paused := true } : Controller).receive (.DirectionInd d) =
          .returned { exampleAdded21 with m_paused := true } [] :=
  ⟨rfl, C9_paused_drops_timeout_and_direction { exampleAdded21 with m_paused := true } rfl⟩

/-- C10: for every state and every event, `receive` throws the unexpected-event exception
exactly when the event is none of Timeout, Direction, food indication, food response and
Pause; and whenever it throws, the exception is that one, nothing has been sent and the state
is as it was. -/
theorem C10_unexpected_event_throws (c : Controller) (e : Event) :
    ((∃ c1 sent, c.receive e = .threw .UnexpectedEventException c1 sent) ↔
        (e ≠ .TimeoutInd ∧ (∀ d, e ≠ .DirectionInd d) ∧ (∀ p, e ≠ .FoodInd p) ∧
          (∀ p, e ≠ .FoodResp p) ∧ e ≠ .PauseInd)) ∧
      (∀ ex c1 sent, c.receive e = .threw ex c1 sent →
        ex = .UnexpectedEventException ∧ c1 = c ∧ sent = []) := by
  cases e <;> simp [Controller.receive, Outcome.ofOption]
  all_goals first
    | (rintro ex c1 sent rfl rfl rfl
       exact ⟨rfl, rfl, rfl⟩)
    | (split_ifs <;> (try split) <;> simp)

/-- Witness of C10: a score notification delivered to the controller is rejected and the
controller is untouched. -/
theorem C10_unexpected_event_throws_witness :
    exampleAdded21.receive .ScoreInd = .threw .UnexpectedEventException exampleAdded21 [] ∧
      ((∃ c1 sent, exampleAdded21.receive .ScoreInd =
          .threw .UnexpectedEventException c1 sent) ↔
        (Event.ScoreInd ≠ .TimeoutInd ∧ (∀ d, Event.ScoreInd ≠ .DirectionInd d) ∧
          (∀ p, Event.ScoreInd ≠ .FoodInd p) ∧ (∀ p, Event.ScoreInd ≠ .FoodResp p) ∧
          Event.ScoreInd ≠ .PauseInd)) ∧
      (∀ ex c1 sent, exampleAdded21.receive .ScoreInd = .threw ex c1 sent →
        ex = .UnexpectedEventException ∧ c1 = exampleAdded21 ∧ sent = []) :=
  ⟨rfl, C10_unexpected_event_throws exampleAdded21 .ScoreInd⟩

/-! ## Steps of the controller -/

theorem nextHead_cons (d : Direction) (hd : Position) (tl : List Position) :
    ({ m_headDirection := d, m_segments := hd :: tl } : Segments).nextHead =
      some (neighbour d hd) := by
  cases d <;> rfl

theorem update_rejected (c : Controller) (nh : Position)
    (hbad : occupied c nh ∨ ¬ inBounds c nh) :
    c.updateSegmentsIfSuccessfullMove nh = some (c, [lossNotification]) := by
  have hrej := (rejects_iff c nh).2 hbad
  simp only [Controller.updateSegmentsIfSuccessfullMove, hrej, if_true, lossNotification]

theorem update_scored (c : Controller) (nh : Position)
    (hfree : ¬ occupied c nh) (hin : inBounds c nh) (hfood : nh = c.m_world.getFoodPosition) :
    c.updateSegmentsIfSuccessfullMove nh =
      some ({ c with m_segments :=
                { c.m_segments with m_segments := nh :: c.m_segments.m_segments } },
        [displayNotification nh .Cell_SNAKE, scoreNotification, foodRequest]) := by
  have hrej := rejects_eq_false c nh hfree hin
  simp only [Controller.updateSegmentsIfSuccessfullMove, hrej, Controller.addHeadSegment,
    Controller.removeTailSegmentIfNotScored, ← hfood, Segments.addHead,
    displayNotification, scoreNotification, foodRequest]
  simp

theorem update_moved (c : Controller) (nh : Position) (hne : c.m_segments.m_segments ≠ [])
    (hfree : ¬ occupied c nh) (hin : inBounds c nh) (hfood : nh ≠ c.m_world.getFoodPosition) :
    c.updateSegmentsIfSuccessfullMove nh =
      some ({ c with m_segments :=
                { c.m_segments with m_segments := nh :: c.m_segments.m_segments.dropLast } },
        [displayNotification nh .Cell_SNAKE,
          displayNotification (c.m_segments.m_segments.getLast hne) .Cell_FREE]) := by
  have hrej := rejects_eq_false c nh hfree hin
  simp only [Controller.updateSegmentsIfSuccessfullMove, hrej, Controller.addHeadSegment,
    Controller.removeTailSegmentIfNotScored, Controller.removeTailSegment,
    removeTail_addHead c.m_segments nh hne, hfood, displayNotification]
  simp

/-- The three ways a Timeout can go in a running controller with a non-empty body. -/
theorem timeout_step (c : Controller) (hrun : c.m_paused = false)
    (hne : c.m_segments.m_segments ≠ []) :
    ∃ nh, c.m_segments.nextHead = some nh ∧
      (((occupied c nh ∨ ¬ inBounds c nh) ∧
          c.receive .TimeoutInd = .returned c [lossNotification]) ∨
        (¬ occupied c nh ∧ inBounds c nh ∧ nh = c.m_world.getFoodPosition ∧
          c.receive .TimeoutInd =
            .returned
              { c with m_segments :=
                  { c.m_segments with m_segments := nh :: c.m_segments.m_segments } }
              [displayNotification nh .Cell_SNAKE, scoreNotification, foodRequest]) ∨
        (¬ occupied c nh ∧ inBounds c nh ∧ nh ≠ c.m_world.getFoodPosition ∧
          c.receive .TimeoutInd =
            .returned
              { c with m_segments :=
                  { c.m_segments with m_segments := nh :: c.m_segments.m_segments.dropLast } }
              [displayNotification nh .Cell_SNAKE,
                displayNotification (c.m_segments.m_segments.getLast hne) .Cell_FREE])) := by
  obtain ⟨nh, hnh⟩ := nextHead_isSome_of_ne_nil c.m_segments hne
  have hrec : c.receive .TimeoutInd = Outcome.ofOption (c.updateSegmentsIfSuccessfullMove nh) := by
    simp only [Controller.receive, hrun, Bool.not_false, if_true, Controller.handleTimeoutInd, hnh]
  refine ⟨nh, hnh, ?_⟩
  by_cases hbad : occupied c nh ∨ ¬ inBounds c nh
  · left
    exact ⟨hbad, by rw [hrec, update_rejected c nh hbad]; rfl⟩
  · have hfree : ¬ occupied c nh := fun h => hbad (Or.inl h)
    have hin : inBounds c nh := by
      by_contra h
      exact hbad (Or.inr h)
    by_cases hfood : nh = c.m_world.getFoodPosition
    · right; left
      exact ⟨hfree, hin, hfood, by rw [hrec, update_scored c nh hfree hin hfood]; rfl⟩
    · right; right
      exact ⟨hfree, hin, hfood, by rw [hrec, update_moved c nh hne hfree hin hfood]; rfl⟩

/-- The two ways a food proposal can go, with the clear policy of the food indication. -/
theorem foodInd_step (c : Controller) (p : Position) :
    ((occupied c p ∨ ¬ inBounds c p) ∧ c.receive (.FoodInd p) = .returned c [foodRequest]) ∨
      (¬ occupied c p ∧ inBounds c p ∧
        c.receive (.FoodInd p) =
          .returned { c with m_world := { c.m_world with m_foodPosition := p } }
            [displayNotification c.m_world.m_foodPosition .Cell_FREE,
              displayNotification p .Cell_FOOD]) := by
  by_cases hbad : occupied c p ∨ ¬ inBounds c p
  · left
    have hrej := (rejects_iff c p).2 hbad
    refine ⟨hbad, ?_⟩
    simp only [Controller.receive, Controller.handleFoodInd, Controller.updateFoodPosition, hrej,
      if_true, foodRequest]
  · right
    have hfree : ¬ occupied c p := fun h => hbad (Or.inl h)
    have hin : inBounds c p := by
      by_contra h
      exact hbad (Or.inr h)
    have hrej := rejects_eq_false c p hfree hin
    refine ⟨hfree, hin, ?_⟩
    simp only [Controller.receive, Controller.handleFoodInd, Controller.updateFoodPosition, hrej,
      Controller.sendClearOldFood, Controller.sendPlaceNewFood, World.setFoodPosition,
      World.getFoodPosition, displayNotification]
    simp

/-- The two ways a food proposal can go, with the clear policy of the food response. -/
theorem foodResp_step (c : Controller) (p : Position) :
    ((occupied c p ∨ ¬ inBounds c p) ∧ c.receive (.FoodResp p) = .returned c [foodRequest]) ∨
      (¬ occupied c p ∧ inBounds c p ∧
        c.receive (.FoodResp p) =
          .returned { c with m_world := { c.m_world with m_foodPosition := p } }
            [displayNotification p .Cell_FOOD]) := by
  by_cases hbad : occupied c p ∨ ¬ inBounds c p
  · left
    have hrej := (rejects_iff c p).2 hbad
    refine ⟨hbad, ?_⟩
    simp only [Controller.receive, Controller.handleFoodResp, Controller.updateFoodPosition,
      hrej, if_true, foodRequest]
  · right
    have hfree : ¬ occupied c p := fun h => hbad (Or.inl h)
    have hin : inBounds c p := by
      by_contra h
      exact hbad (Or.inr h)
    have hrej := rejects_eq_false c p hfree hin
    refine ⟨hfree, hin, ?_⟩
    simp only [Controller.receive, Controller.handleFoodResp, Controller.updateFoodPosition,
      hrej, Controller.sendPlaceNewFood, World.setFoodPosition, displayNotification]
    simp

theorem direction_step (c : Controller) (d : Direction) :
    c.receive (.DirectionInd d) =
      .returned
        (if c.m_paused = true then c
          else { c with m_segments := { c.m_segments with m_headDirection := d } }) [] := by
  cases hp : c.m_paused <;>
    simp [Controller.receive, hp, Controller.handleDirectionInd, Segments.updateDirection]

theorem pause_step (c : Controller) :
    c.receive .PauseInd = .returned { c with m_paused := !c.m_paused } [] := rfl

theorem timeout_paused (c : Controller) (hp : c.m_paused = true) :
    c.receive .TimeoutInd = .returned c [] := by
  simp [Controller.receive, hp]

/-- A property that every returning step keeps, and that makes every step on a recognised
event return, holds after every sequence of recognised events, and the sequence returns. -/
theorem run_invariant (Inv : Controller → Prop)
    (hstep : ∀ c e, Inv c → e.recognised = true →
      ∃ c1 sent, c.receive e = .returned c1 sent ∧ Inv c1) :
    ∀ (events : List Event) (c : Controller), Inv c →
      (∀ e ∈ events, e.recognised = true) →
      ∃ c1 sent, c.run events = .returned c1 sent ∧ Inv c1 := by
  intro events
  induction events with
  | nil => intro c hc _; exact ⟨c, [], rfl, hc⟩
  | cons e events ih =>
    intro c hc hall
    obtain ⟨c1, sent1, h1, hinv1⟩ := hstep c e hc (hall e (List.mem_cons_self _ _))
    obtain ⟨c2, sent2, h2, hinv2⟩ :=
      ih c1 hinv1 (fun e2 he2 => hall e2 (List.mem_cons_of_mem _ he2))
    exact ⟨c2, sent1 ++ sent2, by simp only [Controller.run, h1, h2], hinv2⟩


/-- What one step on a recognised event does to a non-empty body: it returns, keeps the
dimension, and either keeps the body or puts a free, in-bounds cell in front of it, with or
without dropping the last segment; a snake cell is only ever sent for such a cell. -/
theorem body_step (c : Controller) (e : Event) (hne : c.m_segments.m_segments ≠ [])
    (hrec : e.recognised = true) :
    ∃ c1 sent, c.receive e = .returned c1 sent ∧
      c1.m_world.m_dimension = c.m_world.m_dimension ∧
      (c1.m_segments.m_segments = c.m_segments.m_segments ∨
        ∃ nh, ¬ occupied c nh ∧ inBounds c nh ∧
          (c1.m_segments.m_segments = nh :: c.m_segments.m_segments ∨
            c1.m_segments.m_segments = nh :: c.m_segments.m_segments.dropLast)) ∧
      (∀ port p, (⟨port, .DisplayInd p .Cell_SNAKE⟩ : Sent) ∈ sent →
        ¬ occupied c p ∧ inBounds c p) := by
  cases e with
  | TimeoutInd =>
    cases hp : c.m_paused with
    | true =>
      exact ⟨c, [], timeout_paused c hp, rfl, Or.inl rfl, by simp⟩
    | false =>
      obtain ⟨nh, _, h | h | h⟩ := timeout_step c hp hne
      · exact ⟨_, _, h.2, rfl, Or.inl rfl, by simp [lossNotification]⟩
      · obtain ⟨hfree, hin, _, h⟩ := h
        refine ⟨_, _, h, rfl, Or.inr ⟨nh, hfree, hin, Or.inl rfl⟩, ?_⟩
        intro port p hmem
        simp [displayNotification, scoreNotification, foodRequest] at hmem
        obtain ⟨_, rfl⟩ := hmem
        exact ⟨hfree, hin⟩
      · obtain ⟨hfree, hin, _, h⟩ := h
        refine ⟨_, _, h, rfl, Or.inr ⟨nh, hfree, hin, Or.inr rfl⟩, ?_⟩
        intro port p hmem
        simp [displayNotification] at hmem
        obtain ⟨_, rfl⟩ := hmem
        exact ⟨hfree, hin⟩
  | DirectionInd d =>
    refine ⟨_, _, direction_step c d, ?_, Or.inl ?_, by simp⟩ <;> split_ifs <;> rfl
  | FoodInd p =>
    rcases foodInd_step c p with h | h
    · exact ⟨_, _, h.2, rfl, Or.inl rfl, by simp [foodRequest]⟩
    · exact ⟨_, _, h.2.2, rfl, Or.inl rfl, by simp [displayNotification]⟩
  | FoodResp p =>
    rcases foodResp_step c p with h | h
    · exact ⟨_, _, h.2, rfl, Or.inl rfl, by simp [foodRequest]⟩
    · exact ⟨_, _, h.2.2, rfl, Or.inl rfl, by simp [displayNotification]⟩
  | PauseInd => exact ⟨_, _, pause_step c, rfl, Or.inl rfl, by simp⟩
  | DisplayInd _ _ => exact absurd hrec (by simp [Event.recognised])
  | FoodReq => exact absurd hrec (by decide)
  | ScoreInd => exact absurd hrec (by decide)
  | LooseInd => exact absurd hrec (by decide)

theorem inBounds_congr (c c1 : Controller) (p : Position)
    (hdim : c1.m_world.m_dimension = c.m_world.m_dimension) :
    inBounds c1 p ↔ inBounds c p := by
  simp only [inBounds, hdim]

/-- What one returning step does to the world: the dimension stays, the food position stays
or becomes a free, in-bounds cell, and a food cell is only ever sent for an in-bounds cell. -/
theorem world_step (c : Controller) (e : Event) (c1 : Controller) (sent : List Sent)
    (h : c.receive e = .returned c1 sent) :
    c1.m_world.m_dimension = c.m_world.m_dimension ∧
      (c1.m_world.m_foodPosition = c.m_world.m_foodPosition ∨
        inBounds c c1.m_world.m_foodPosition) ∧
      (∀ port p, (⟨port, .DisplayInd p .Cell_FOOD⟩ : Sent) ∈ sent → inBounds c p) := by
  have key : ∀ (c2 : Controller) (sent2 : List Sent), c.receive e = .returned c2 sent2 →
      (c2.m_world.m_dimension = c.m_world.m_dimension ∧
        (c2.m_world.m_foodPosition = c.m_world.m_foodPosition ∨
          inBounds c c2.m_world.m_foodPosition) ∧
        (∀ port p, (⟨port, .DisplayInd p .Cell_FOOD⟩ : Sent) ∈ sent2 → inBounds c p)) →
      (c1.m_world.m_dimension = c.m_world.m_dimension ∧
        (c1.m_world.m_foodPosition = c.m_world.m_foodPosition ∨
          inBounds c c1.m_world.m_foodPosition) ∧
        (∀ port p, (⟨port, .DisplayInd p .Cell_FOOD⟩ : Sent) ∈ sent → inBounds c p)) := by
    intro c2 sent2 h2 hP
    rw [h2] at h
    injection h with hc hs
    subst hc hs
    exact hP
  cases e with
  | TimeoutInd =>
    cases hp : c.m_paused with
    | true => exact key _ _ (timeout_paused c hp) ⟨rfl, Or.inl rfl, by simp⟩
    | false =>
      by_cases hne : c.m_segments.m_segments = []
      · exfalso
        have hnone : c.m_segments.nextHead = none := by
          simp only [Segments.nextHead, hne]
        simp [Controller.receive, hp, Controller.handleTimeoutInd, hnone, Outcome.ofOption] at h
      · obtain ⟨nh, _, h3 | h3 | h3⟩ := timeout_step c hp hne
        · exact key _ _ h3.2 ⟨rfl, Or.inl rfl, by simp [lossNotification]⟩
        · exact key _ _ h3.2.2.2 ⟨rfl, Or.inl rfl,
            by simp [displayNotification, scoreNotification, foodRequest]⟩
        · exact key _ _ h3.2.2.2 ⟨rfl, Or.inl rfl, by simp [displayNotification]⟩
  | DirectionInd d =>
    refine key _ _ (direction_step c d) ⟨?_, Or.inl ?_, by simp⟩ <;> split_ifs <;> rfl
  | FoodInd p =>
    rcases foodInd_step c p with h3 | h3
    · exact key _ _ h3.2 ⟨rfl, Or.inl rfl, by simp [foodRequest]⟩
    · refine key _ _ h3.2.2 ⟨rfl, Or.inr h3.2.1, ?_⟩
      intro port q hmem
      simp [displayNotification] at hmem
      obtain ⟨_, rfl⟩ := hmem
      exact h3.2.1
  | FoodResp p =>
    rcases foodResp_step c p with h3 | h3
    · exact key _ _ h3.2 ⟨rfl, Or.inl rfl, by simp [foodRequest]⟩
    · refine key _ _ h3.2.2 ⟨rfl, Or.inr h3.2.1, ?_⟩
      intro port q hmem
      simp [displayNotification] at hmem
      obtain ⟨_, rfl⟩ := hmem
      exact h3.2.1
  | PauseInd => exact key _ _ (pause_step c) ⟨rfl, Or.inl rfl, by simp⟩
  | DisplayInd _ _ => simp [Controller.receive] at h
  | FoodReq => simp [Controller.receive] at h
  | ScoreInd => simp [Controller.receive] at h
  | LooseInd => simp [Controller.receive] at h

/-- A step on a recognised event returns unless it is a Timeout in a running controller with
an empty body. -/
theorem receive_returns (c : Controller) (e : Event) (hrec : e.recognised = true)
    (hdef : c.m_segments.m_segments ≠ [] ∨ e ≠ .TimeoutInd ∨ c.m_paused = true) :
    ∃ c1 sent, c.receive e = .returned c1 sent := by
  by_cases hne : c.m_segments.m_segments = []
  · cases e with
    | TimeoutInd =>
      rcases hdef with h | h | h
      · exact absurd hne h
      · exact absurd rfl h
      · exact ⟨_, _, timeout_paused c h⟩
    | DirectionInd d => exact ⟨_, _, direction_step c d⟩
    | FoodInd p => exact ⟨_, _, rfl⟩
    | FoodResp p => exact ⟨_, _, rfl⟩
    | PauseInd => exact ⟨_, _, rfl⟩
    | DisplayInd _ _ => exact absurd hrec (by simp [Event.recognised])
    | FoodReq => exact absurd hrec (by decide)
    | ScoreInd => exact absurd hrec (by decide)
    | LooseInd => exact absurd hrec (by decide)
  · obtain ⟨c1, sent, h, _⟩ := body_step c e hne hrec
    exact ⟨c1, sent, h⟩


/-! ## Reversal -/

/-- C13: in a running controller whose body has at least two segments, if the segment directly
behind the head lies one unit from the head in direction `d`, then the Direction event with
`d` is accepted (it sends nothing and only sets the heading) and the Timeout that follows
sends exactly one event, the loss notification; over the two events together exactly that one
event is sent, and body and stored food position are as they were. -/
theorem C13_reversal_then_timeout_loses (c : Controller) (d : Direction)
    (hd second : Position) (rest : List Position)
    (hrun : c.m_paused = false)
    (hbody : c.m_segments.m_segments = hd :: second :: rest)
    (hbehind : second = neighbour d hd) :
    ∃ c1, c.receive (.DirectionInd d) = .returned c1 [] ∧
      c1.receive .TimeoutInd = .returned c1 [lossNotification] ∧
      c.run [.DirectionInd d, .TimeoutInd] = .returned c1 [lossNotification] ∧
      c1.m_segments.m_segments = c.m_segments.m_segments ∧
      c1.m_world = c.m_world ∧ c1.m_segments.m_headDirection = d := by
  obtain ⟨w, ⟨d0, body⟩, paused⟩ := c
  simp only at hrun hbody
  subst hrun hbody hbehind
  have h1 : (⟨w, ⟨d0, hd :: neighbour d hd :: rest⟩, false⟩ : Controller).receive
      (.DirectionInd d) = .returned ⟨w, ⟨d, hd :: neighbour d hd :: rest⟩, false⟩ [] := rfl
  have hocc : occupied ⟨w, ⟨d, hd :: neighbour d hd :: rest⟩, false⟩ (neighbour d hd) := by
    simp [occupied]
  have h2 : (⟨w, ⟨d, hd :: neighbour d hd :: rest⟩, false⟩ : Controller).receive .TimeoutInd =
      .returned ⟨w, ⟨d, hd :: neighbour d hd :: rest⟩, false⟩ [lossNotification] := by
    simp only [Controller.receive, Bool.not_false, if_true, Controller.handleTimeoutInd,
      nextHead_cons, update_rejected _ _ (Or.inl hocc), Outcome.ofOption]
  refine ⟨_, h1, h2, ?_, rfl, rfl, rfl⟩
  simp only [Controller.run, h1, h2, List.nil_append, List.append_nil]

/-- Witness of C13: head (2,1), tail (1,1), heading RIGHT, turned LEFT. -/
theorem C13_reversal_then_timeout_loses_witness :
    ∃ c1, exampleAdded21.receive (.DirectionInd .Direction_LEFT) = .returned c1 [] ∧
      c1.receive .TimeoutInd = .returned c1 [lossNotification] ∧
      exampleAdded21.run [.DirectionInd .Direction_LEFT, .TimeoutInd] =
        .returned c1 [lossNotification] ∧
      c1.m_segments.m_segments = exampleAdded21.m_segments.m_segments ∧
      c1.m_world = exampleAdded21.m_world ∧
      c1.m_segments.m_headDirection = .Direction_LEFT :=
  C13_reversal_then_timeout_loses exampleAdded21 .Direction_LEFT { x := 2, y := 1 }
    { x := 1, y := 1 } [] rfl rfl (by decide)

/-! ## Invariants -/

/-- C14: a non-empty body stays non-empty.  In a controller with a non-empty body every
recognised event is handled to the end (`receive` returns, so `nextHead` and `removeTail`
found a segment) and leaves a non-empty body; hence every sequence of recognised events,
delivered one after the other, is handled to the end and leaves a non-empty body. -/
theorem C14_body_stays_non_empty (c : Controller) (hne : c.m_segments.m_segments ≠ []) :
    (∀ e : Event, e.recognised = true →
      ∃ c1 sent, c.receive e = .returned c1 sent ∧ c1.m_segments.m_segments ≠ []) ∧
      (∀ events : List Event, (∀ e ∈ events, e.recognised = true) →
        ∃ c1 sent, c.run events = .returned c1 sent ∧ c1.m_segments.m_segments ≠ []) := by
  have hstep : ∀ (c0 : Controller) (e : Event), c0.m_segments.m_segments ≠ [] →
      e.recognised = true →
      ∃ c1 sent, c0.receive e = .returned c1 sent ∧ c1.m_segments.m_segments ≠ [] := by
    intro c0 e h0 hrec
    obtain ⟨c1, sent, h, _, hbody, _⟩ := body_step c0 e h0 hrec
    refine ⟨c1, sent, h, ?_⟩
    rcases hbody with hb | ⟨nh, _, _, hb | hb⟩ <;> rw [hb]
    · exact h0
    · exact List.cons_ne_nil _ _
    · exact List.cons_ne_nil _ _
  exact ⟨fun e hrec => hstep c e hne hrec,
    fun events hall => run_invariant (fun c0 => c0.m_segments.m_segments ≠ []) hstep events c
      hne hall⟩

/-- Witness of C14: the two-segment example. -/
theorem C14_body_stays_non_empty_witness :
    exampleAdded21.m_segments.m_segments ≠ [] ∧
      (∀ e : Event, e.recognised = true →
        ∃ c1 sent, exampleAdded21.receive e = .returned c1 sent ∧
          c1.m_segments.m_segments ≠ []) ∧
      (∀ events : List Event, (∀ e ∈ events, e.recognised = true) →
        ∃ c1 sent, exampleAdded21.run events = .returned c1 sent ∧
          c1.m_segments.m_segments ≠ []) :=
  ⟨by decide, C14_body_stays_non_empty exampleAdded21 (by decide)⟩

/-- C15: a non-empty body without a repeated position stays without a repeated position.  In
such a controller every recognised event is handled to the end and leaves a body without a
repeated position; hence so does every sequence of recognised events. -/
theorem C15_body_stays_distinct (c : Controller) (hne : c.m_segments.m_segments ≠ [])
    (hnodup : c.m_segments.m_segments.Nodup) :
    (∀ e : Event, e.recognised = true →
      ∃ c1 sent, c.receive e = .returned c1 sent ∧ c1.m_segments.m_segments.Nodup) ∧
      (∀ events : List Event, (∀ e ∈ events, e.recognised = true) →
        ∃ c1 sent, c.run events = .returned c1 sent ∧ c1.m_segments.m_segments.Nodup) := by
  have hstep : ∀ (c0 : Controller) (e : Event),
      (c0.m_segments.m_segments ≠ [] ∧ c0.m_segments.m_segments.Nodup) →
      e.recognised = true →
      ∃ c1 sent, c0.receive e = .returned c1 sent ∧
        (c1.m_segments.m_segments ≠ [] ∧ c1.m_segments.m_segments.Nodup) := by
    intro c0 e h0 hrec
    obtain ⟨c1, sent, h, _, hbody, _⟩ := body_step c0 e h0.1 hrec
    refine ⟨c1, sent, h, ?_⟩
    rcases hbody with hb | ⟨nh, hfree, _, hb | hb⟩ <;> rw [hb]
    · exact h0
    · exact ⟨List.cons_ne_nil _ _, List.nodup_cons.2 ⟨hfree, h0.2⟩⟩
    · refine ⟨List.cons_ne_nil _ _, List.nodup_cons.2 ⟨?_, ?_⟩⟩
      · exact fun hmem => hfree (List.dropLast_subset _ hmem)
      · exact h0.2.sublist (List.dropLast_sublist _)
  constructor
  · intro e hrec
    obtain ⟨c1, sent, h, _, hn⟩ := hstep c e ⟨hne, hnodup⟩ hrec
    exact ⟨c1, sent, h, hn⟩
  · intro events hall
    obtain ⟨c1, sent, h, _, hn⟩ :=
      run_invariant (fun c0 => c0.m_segments.m_segments ≠ [] ∧ c0.m_segments.m_segments.Nodup)
        hstep events c ⟨hne, hnodup⟩ hall
    exact ⟨c1, sent, h, hn⟩

/-- Witness of C15: the two-segment example. -/
theorem C15_body_stays_distinct_witness :
    exampleAdded21.m_segments.m_segments ≠ [] ∧ exampleAdded21.m_segments.m_segments.Nodup ∧
      (∀ e : Event, e.recognised = true →
        ∃ c1 sent, exampleAdded21.receive e = .returned c1 sent ∧
          c1.m_segments.m_segments.Nodup) ∧
      (∀ events : List Event, (∀ e ∈ events, e.recognised = true) →
        ∃ c1 sent, exampleAdded21.run events = .returned c1 sent ∧
          c1.m_segments.m_segments.Nodup) :=
  ⟨by decide, by decide, C15_body_stays_distinct exampleAdded21 (by decide) (by decide)⟩


/-- C16: a stored food position inside the world stays inside the world.  For a controller
whose stored food position is in bounds and a recognised event: the event is handled to the
end unless it is a Timeout in a running controller with an empty body; and whenever it is
handled to the end, the dimension is as before, the stored food position is in bounds, and
every food cell sent, on whichever port, is in bounds. -/
theorem C16_food_stays_in_bounds (c : Controller) (e : Event)
    (hfood : inBounds c c.m_world.m_foodPosition) (hrec : e.recognised = true) :
    (c.m_segments.m_segments ≠ [] ∨ e ≠ .TimeoutInd ∨ c.m_paused = true →
        ∃ c1 sent, c.receive e = .returned c1 sent) ∧
      (∀ c1 sent, c.receive e = .returned c1 sent →
        c1.m_world.m_dimension = c.m_world.m_dimension ∧
          inBounds c1 c1.m_world.m_foodPosition ∧
          (∀ port p, (⟨port, .DisplayInd p .Cell_FOOD⟩ : Sent) ∈ sent → inBounds c1 p)) := by
  refine ⟨receive_returns c e hrec, ?_⟩
  intro c1 sent h
  obtain ⟨hdim, hf, hsent⟩ := world_step c e c1 sent h
  refine ⟨hdim, ?_, ?_⟩
  · rw [inBounds_congr c c1 _ hdim]
    rcases hf with hf | hf
    · rw [hf]; exact hfood
    · exact hf
  · intro port p hmem
    rw [inBounds_congr c c1 _ hdim]
    exact hsent port p hmem

/-- Witness of C16: a valid food indication in the two-segment example. -/
theorem C16_food_stays_in_bounds_witness :
    inBounds exampleAdded21 exampleAdded21.m_world.m_foodPosition ∧
      (Event.FoodInd { x := 4, y := 4 }).recognised = true ∧
      (exampleAdded21.m_segments.m_segments ≠ [] ∨
          Event.FoodInd { x := 4, y := 4 } ≠ .TimeoutInd ∨ exampleAdded21.m_paused = true →
        ∃ c1 sent, exampleAdded21.receive (.FoodInd { x := 4, y := 4 }) = .returned c1 sent) ∧
      (∀ c1 sent, exampleAdded21.receive (.FoodInd { x := 4, y := 4 }) = .returned c1 sent →
        c1.m_world.m_dimension = exampleAdded21.m_world.m_dimension ∧
          inBounds c1 c1.m_world.m_foodPosition ∧
          (∀ port p, (⟨port, .DisplayInd p .Cell_FOOD⟩ : Sent) ∈ sent → inBounds c1 p)) :=
  ⟨by decide, rfl,
    C16_food_stays_in_bounds exampleAdded21 (.FoodInd { x := 4, y := 4 }) (by decide) rfl⟩

/-- C17: a non-empty body inside the world stays inside the world.  For a controller with a
non-empty body all of whose positions are in bounds and a recognised event: the event is
handled to the end, the dimension is as before, every position of the body afterwards is in
bounds, and every snake cell sent, on whichever port, is in bounds. -/
theorem C17_body_stays_in_bounds (c : Controller) (e : Event)
    (hne : c.m_segments.m_segments ≠ [])
    (hall : ∀ p ∈ c.m_segments.m_segments, inBounds c p) (hrec : e.recognised = true) :
    ∃ c1 sent, c.receive e = .returned c1 sent ∧
      c1.m_world.m_dimension = c.m_world.m_dimension ∧
      (∀ p ∈ c1.m_segments.m_segments, inBounds c1 p) ∧
      (∀ port p, (⟨port, .DisplayInd p .Cell_SNAKE⟩ : Sent) ∈ sent → inBounds c1 p) := by
  obtain ⟨c1, sent, h, hdim, hbody, hsent⟩ := body_step c e hne hrec
  refine ⟨c1, sent, h, hdim, ?_, ?_⟩
  · intro p hp
    rw [inBounds_congr c c1 _ hdim]
    rcases hbody with hb | ⟨nh, _, hin, hb | hb⟩ <;> rw [hb] at hp
    · exact hall p hp
    · rcases List.mem_cons.1 hp with rfl | hp
      · exact hin
      · exact hall p hp
    · rcases List.mem_cons.1 hp with rfl | hp
      · exact hin
      · exact hall p (List.dropLast_subset _ hp)
  · intro port p hmem
    rw [inBounds_congr c c1 _ hdim]
    exact (hsent port p hmem).2

/-- Witness of C17: a Timeout in the two-segment example. -/
theorem C17_body_stays_in_bounds_witness :
    exampleAdded21.m_segments.m_segments ≠ [] ∧
      (∀ p ∈ exampleAdded21.m_segments.m_segments, inBounds exampleAdded21 p) ∧
      Event.TimeoutInd.recognised = true ∧
      ∃ c1 sent, exampleAdded21.receive .TimeoutInd = .returned c1 sent ∧
        c1.m_world.m_dimension = exampleAdded21.m_world.m_dimension ∧
        (∀ p ∈ c1.m_segments.m_segments, inBounds c1 p) ∧
        (∀ port p, (⟨port, .DisplayInd p .Cell_SNAKE⟩ : Sent) ∈ sent → inBounds c1 p) :=
  ⟨by decide, by decide, rfl,
    C17_body_stays_in_bounds exampleAdded21 .TimeoutInd (by decide) (by decide) rfl⟩

/-! ## Food that has been eaten -/

/-- C18: a Timeout never changes the world, so the food the snake has reached stays stored.
Every Timeout that is handled to the end leaves the world (dimension and food position) as it
was, and with a non-empty body it is handled to the end.  In the 5x5 world with food at (3,3)
the snake with head (2,3) and tail (1,3), heading RIGHT, fed only Timeout and Direction
events, reaches (3,3), circles through (4,3), (4,4), (3,4) and reaches (3,3) again: two score
notifications are sent, the body has grown twice, and the stored food position is (3,3) all
along. -/
theorem C18_eaten_food_stays_stored :
    (∀ (c c1 : Controller) (sent : List Sent),
        c.receive .TimeoutInd = .returned c1 sent → c1.m_world = c.m_world) ∧
      (∀ c : Controller, c.m_segments.m_segments ≠ [] →
        ∃ c1 sent, c.receive .TimeoutInd = .returned c1 sent ∧ c1.m_world = c.m_world) ∧
      (∀ e ∈ exampleCircle, e = .TimeoutInd ∨ ∃ d, e = .DirectionInd d) ∧
      exampleBeforeFood.run exampleCircle =
        .returned
          { m_world := exampleWorld,
            m_segments :=
              { m_headDirection := .Direction_UP,
                m_segments :=
                  [{ x := 3, y := 3 }, { x := 3, y := 4 }, { x := 4, y := 4 },
                    { x := 4, y := 3 }] },
            m_paused := false }
          [displayNotification { x := 3, y := 3 } .Cell_SNAKE, scoreNotification, foodRequest,
            displayNotification { x := 4, y := 3 } .Cell_SNAKE,
            displayNotification { x := 1, y := 3 } .Cell_FREE,
            displayNotification { x := 4, y := 4 } .Cell_SNAKE,
            displayNotification { x := 2, y := 3 } .Cell_FREE,
            displayNotification { x := 3, y := 4 } .Cell_SNAKE,
            displayNotification { x := 3, y := 3 } .Cell_FREE,
            displayNotification { x := 3, y := 3 } .Cell_SNAKE, scoreNotification,
            foodRequest] ∧
      exampleWorld.getFoodPosition = { x := 3, y := 3 } := by
  have hworld : ∀ (c c1 : Controller) (sent : List Sent),
      c.receive .TimeoutInd = .returned c1 sent → c1.m_world = c.m_world := by
    intro c c1 sent h
    cases hp : c.m_paused with
    | true =>
      rw [timeout_paused c hp] at h
      injection h with hc _
      rw [← hc]
    | false =>
      by_cases hne : c.m_segments.m_segments = []
      · exfalso
        have hnone : c.m_segments.nextHead = none := by
          simp only [Segments.nextHead, hne]
        simp [Controller.receive, hp, Controller.handleTimeoutInd, hnone, Outcome.ofOption] at h
      · obtain ⟨nh, _, h3 | h3 | h3⟩ := timeout_step c hp hne
        · rw [h3.2] at h
          injection h with hc _
          rw [← hc]
        · rw [h3.2.2.2] at h
          injection h with hc _
          rw [← hc]
        · rw [h3.2.2.2] at h
          injection h with hc _
          rw [← hc]
  refine ⟨hworld, ?_, ?_, by decide, rfl⟩
  swap
  · intro e he
    simp only [exampleCircle, List.mem_cons, List.mem_singleton, List.not_mem_nil,
      or_false] at he
    rcases he with rfl | rfl | rfl | rfl | rfl | rfl | rfl | rfl <;> simp
  intro c hne
  obtain ⟨c1, sent, h⟩ := receive_returns c .TimeoutInd rfl (Or.inl hne)
  exact ⟨c1, sent, h, hworld c c1 sent h⟩

/-- C19: the free cell sent for a valid food indication is not checked against the body.  Take
a running controller with a non-empty body whose candidate head `nh` is free, in bounds and
the stored food position: the Timeout scores and leaves `nh` as head and as stored food
position.  In that state a food indication for any in-bounds position `p` the body does not
occupy sends the free cell for `nh`, a cell the snake occupies, then the food cell for `p`,
and leaves the body as it is. -/
theorem C19_clear_cell_under_the_head (c : Controller) (nh p : Position)
    (hrun : c.m_paused = false) (hne : c.m_segments.m_segments ≠ [])
    (hnh : c.m_segments.nextHead = some nh)
    (hfree : ¬ occupied c nh) (hin : inBounds c nh)
    (hfood : nh = c.m_world.getFoodPosition)
    (hp_free : p ∉ nh :: c.m_segments.m_segments) (hp_in : inBounds c p) :
    ∃ c1, c.receive .TimeoutInd =
        .returned c1 [displayNotification nh .Cell_SNAKE, scoreNotification, foodRequest] ∧
      c1.m_segments.m_segments = nh :: c.m_segments.m_segments ∧
      c1.m_world.getFoodPosition = nh ∧
      occupied c1 nh ∧ ¬ occupied c1 p ∧ inBounds c1 p ∧
      c1.receive (.FoodInd p) =
        .returned { c1 with m_world := { c1.m_world with m_foodPosition := p } }
          [displayNotification nh .Cell_FREE, displayNotification p .Cell_FOOD] := by
  have _ := hne
  have h1 : c.receive .TimeoutInd =
      .returned
        { c with m_segments :=
            { c.m_segments with m_segments := nh :: c.m_segments.m_segments } }
        [displayNotification nh .Cell_SNAKE, scoreNotification, foodRequest] := by
    simp only [Controller.receive, hrun, Bool.not_false, if_true, Controller.handleTimeoutInd,
      hnh, update_scored c nh hfree hin hfood, Outcome.ofOption]
  refine ⟨_, h1, rfl, hfood.symm, ?_, hp_free, hp_in, ?_⟩
  · simp [occupied]
  · rcases foodInd_step
        { c with m_segments :=
            { c.m_segments with m_segments := nh :: c.m_segments.m_segments } } p with h | h
    · rcases h.1 with hocc | hout
      · exact absurd hocc hp_free
      · exact absurd hp_in hout
    · have h2 := h.2.2
      have hf : c.m_world.m_foodPosition = nh := hfood.symm
      simp only [hf] at h2
      exact h2

/-- Witness of C19: head (2,3), tail (1,3), heading RIGHT, food at (3,3); after the scoring
Timeout the new food is proposed at (4,4). -/
theorem C19_clear_cell_under_the_head_witness :
    ∃ c1, exampleBeforeFood.receive .TimeoutInd =
        .returned c1 [displayNotification { x := 3, y := 3 } .Cell_SNAKE, scoreNotification,
          foodRequest] ∧
      c1.m_segments.m_segments = { x := 3, y := 3 } :: exampleBeforeFood.m_segments.m_segments ∧
      c1.m_world.getFoodPosition = { x := 3, y := 3 } ∧
      occupied c1 { x := 3, y := 3 } ∧ ¬ occupied c1 { x := 4, y := 4 } ∧
      inBounds c1 { x := 4, y := 4 } ∧
      c1.receive (.FoodInd { x := 4, y := 4 }) =
        .returned { c1 with m_world := { c1.m_world with m_foodPosition := { x := 4, y := 4 } } }
          [displayNotification { x := 3, y := 3 } .Cell_FREE,
            displayNotification { x := 4, y := 4 } .Cell_FOOD] :=
  C19_clear_cell_under_the_head exampleBeforeFood { x := 3, y := 3 } { x := 4, y := 4 } rfl
    (by decide) rfl (by decide) (by decide) rfl (by decide) (by decide)


/-! ## Reading a well-formed configuration -/

theorem digitChar_spec (k : Nat) (hk : k < 10) :
    isdigit (Nat.digitChar k) = true ∧ (Nat.digitChar k).toNat - 48 = k := by
  interval_cases k <;> exact ⟨by decide, by decide⟩

theorem digitsValue_append_singleton (pre : List Char) (ch : Char) :
    digitsValue (pre ++ [ch]) = 10 * digitsValue pre + (ch.toNat - 48) := by
  simp [digitsValue, List.foldl_append]

theorem toDigitsCore_spec : ∀ (fuel n : Nat) (ds : List Char), n < fuel →
    ∃ pre, Nat.toDigitsCore 10 fuel n ds = pre ++ ds ∧ pre ≠ [] ∧
      (∀ ch ∈ pre, isdigit ch = true) ∧ digitsValue pre = n := by
  intro fuel
  induction fuel with
  | zero => intro n ds h; exact absurd h (Nat.not_lt_zero n)
  | succ fuel ih =>
    intro n ds hlt
    have hd := digitChar_spec (n % 10) (Nat.mod_lt n (by decide))
    by_cases h0 : n / 10 = 0
    · refine ⟨[Nat.digitChar (n % 10)], ?_, List.cons_ne_nil _ _, ?_, ?_⟩
      · simp [Nat.toDigitsCore, h0]
      · intro ch hch
        rw [List.mem_singleton.1 hch]
        exact hd.1
      · have h := digitsValue_append_singleton [] (Nat.digitChar (n % 10))
        simp only [List.nil_append] at h
        rw [h, hd.2]
        simp only [digitsValue, List.foldl_nil]
        omega
    · have hlt2 : n / 10 < fuel := by omega
      obtain ⟨pre, hpre, _, hdig, hval⟩ := ih (n / 10) (Nat.digitChar (n % 10) :: ds) hlt2
      refine ⟨pre ++ [Nat.digitChar (n % 10)], ?_, ?_, ?_, ?_⟩
      · simp [Nat.toDigitsCore, h0, hpre]
      · simp
      · intro ch hch
        rcases List.mem_append.1 hch with h | h
        · exact hdig ch h
        · rw [List.mem_singleton.1 h]
          exact hd.1
      · rw [digitsValue_append_singleton, hval, hd.2]
        omega

theorem toDigits_spec (n : Nat) :
    Nat.toDigits 10 n ≠ [] ∧ (∀ ch ∈ Nat.toDigits 10 n, isdigit ch = true) ∧
      digitsValue (Nat.toDigits 10 n) = n := by
  obtain ⟨pre, hpre, hne, hdig, hval⟩ := toDigitsCore_spec (n + 1) n [] (Nat.lt_succ_self n)
  have h : Nat.toDigits 10 n = pre := by
    simp only [Nat.toDigits, hpre, List.append_nil]
  rw [h]
  exact ⟨hne, hdig, hval⟩

/-- No digit follows: the list is empty or starts with a character that is not a digit. -/
theorem takeWhile_digits_append (ds rest : List Char) (hds : ∀ ch ∈ ds, isdigit ch = true)
    (hrest : ∀ ch ∈ rest.head?, isdigit ch = false) :
    (ds ++ rest).takeWhile isdigit = ds ∧ (ds ++ rest).dropWhile isdigit = rest := by
  induction ds with
  | nil =>
    cases rest with
    | nil => exact ⟨rfl, rfl⟩
    | cons ch tl =>
      have h : isdigit ch = false := hrest ch (by simp)
      simp [List.takeWhile, List.dropWhile, h]
  | cons d ds ih =>
    have hd : isdigit d = true := hds d (List.mem_cons_self _ _)
    have ih2 := ih (fun ch hch => hds ch (List.mem_cons_of_mem _ hch))
    simp [List.takeWhile, List.dropWhile, hd, ih2.1, ih2.2]


theorem isdigit_props (ch : Char) (h : isdigit ch = true) :
    isspace ch = false ∧ (ch == '-') = false ∧ (ch == '+') = false := by
  simp only [isdigit, Bool.and_eq_true, decide_eq_true_eq] at h
  refine ⟨?_, ?_, ?_⟩
  · simp only [isspace, Bool.or_eq_false_iff, Bool.and_eq_false_iff, beq_eq_false_iff_ne,
      decide_eq_false_iff_not]
    omega
  · rw [beq_eq_false_iff_ne]
    rintro rfl
    revert h
    decide
  · rw [beq_eq_false_iff_ne]
    rintro rfl
    revert h
    decide

theorem extractInt_render (v : Int) (rest : List Char) (hv : isInt v)
    (hrest : ∀ ch ∈ rest.head?, isdigit ch = false) :
    IStream.extractInt { rest := ' ' :: (renderInt v ++ rest), failbit := false } =
      ({ rest := rest, failbit := false }, some v) := by
  obtain ⟨hne, hdig, hval⟩ := toDigits_spec v.natAbs
  obtain ⟨htake, hdrop⟩ := takeWhile_digits_append _ rest hdig hrest
  have hsp : isspace ' ' = true := by decide
  have hminus : isspace '-' = false := by decide
  obtain ⟨hlo, hhi⟩ := hv
  by_cases hneg : v < 0
  · have hval2 : -((digitsValue (Nat.toDigits 10 v.natAbs) : Nat) : Int) = v := by
      rw [hval]; omega
    simp only [IStream.extractInt, renderInt, hneg, if_true, List.cons_append,
      List.dropWhile_cons, hsp, hminus, Bool.false_eq_true, if_false, beq_self_eq_true,
      Bool.true_or, htake, hdrop, hval2]
    have hemp : (Nat.toDigits 10 v.natAbs).isEmpty = false := by
      cases h : Nat.toDigits 10 v.natAbs with
      | nil => exact absurd h hne
      | cons _ _ => rfl
    simp only [hemp, Bool.false_eq_true, if_false]
    rw [if_neg (by omega), if_neg (by omega)]
  · have hval2 : ((digitsValue (Nat.toDigits 10 v.natAbs) : Nat) : Int) = v := by
      rw [hval]; omega
    cases hds : Nat.toDigits 10 v.natAbs with
    | nil => exact absurd hds hne
    | cons d ds =>
      rw [hds] at hdig htake hdrop hval2
      obtain ⟨h1, h2, h3⟩ := isdigit_props d (hdig d (List.mem_cons_self _ _))
      simp only [List.cons_append] at htake hdrop
      simp only [IStream.extractInt, renderInt, hneg, if_false, hds, List.cons_append,
        List.dropWhile_cons, hsp, if_true, h1, Bool.false_eq_true, h2, h3, Bool.or_self,
        htake, hdrop, hval2, List.isEmpty_cons]
      rw [if_neg (by omega), if_neg (by omega)]

theorem extractChar_first (ch : Char) (rest : List Char) (hch : isspace ch = false) :
    IStream.extractChar { rest := ch :: rest, failbit := false } =
      ({ rest := rest, failbit := false }, some ch) := by
  simp [IStream.extractChar, List.dropWhile_cons, hch]

theorem extractChar_blank (ch : Char) (rest : List Char) (hch : isspace ch = false) :
    IStream.extractChar { rest := ' ' :: ch :: rest, failbit := false } =
      ({ rest := rest, failbit := false }, some ch) := by
  have hsp : isspace ' ' = true := by decide
  simp [IStream.extractChar, List.dropWhile_cons, hch, hsp]


theorem head_blank (l : List Char) : ∀ ch ∈ (' ' :: l).head?, isdigit ch = false := by
  intro ch hch
  simp only [List.head?_cons, Option.mem_def, Option.some.injEq] at hch
  rw [← hch]
  decide

theorem renderSegments_head (segments : List Position) :
    ∀ ch ∈ (renderSegments segments).head?, isdigit ch = false := by
  cases segments with
  | nil => intro ch hch; simp [renderSegments] at hch
  | cons p tl =>
    simp only [renderSegments, List.cons_append, List.append_assoc]
    exact head_blank _

theorem readSegments_render : ∀ (segments : List Position) (s0 : Segments),
    (∀ p ∈ segments, isInt p.x ∧ isInt p.y) →
    readSegments segments.length { rest := renderSegments segments, failbit := false } s0 =
      some { s0 with m_segments := s0.m_segments ++ segments } := by
  intro segments
  induction segments with
  | nil => intro s0 _; simp [readSegments, renderSegments]
  | cons p tl ih =>
    intro s0 hall
    have hp := hall p (List.mem_cons_self _ _)
    have hx := extractInt_render p.x (' ' :: (renderInt p.y ++ renderSegments tl)) hp.1
      (head_blank _)
    have hy := extractInt_render p.y (renderSegments tl) hp.2 (renderSegments_head tl)
    have ih2 := ih (s0.addSegment { x := p.x, y := p.y })
      (fun q hq => hall q (List.mem_cons_of_mem _ hq))
    simp only [Segments.addSegment] at ih2
    simp only [List.length_cons, readSegments, renderSegments, List.cons_append,
      List.append_assoc, hx, hy, Segments.addSegment, ih2, List.nil_append]

/-- The constructor on a header with single blanks and numbers that fit an `int`: the three
marker tests, then the `switch` over the heading character, then the segments. -/
theorem construct_renderHeader (w : Char) (width height : Int) (f : Char) (foodX foodY : Int)
    (s d : Char) (rest : List Char)
    (hw : isspace w = false) (hf : isspace f = false) (hs : isspace s = false)
    (hd : isspace d = false)
    (hwidth : isInt width) (hheight : isInt height) (hfoodX : isInt foodX)
    (hfoodY : isInt foodY) :
    Controller.construct (renderHeader w width height f foodX foodY s d rest) =
      if w ≠ 'W' then .threw .ConfigurationError
      else if f ≠ 'F' then .threw .ConfigurationError
      else if s ≠ 'S' then .threw .ConfigurationError
      else
        match startDirectionOf d with
        | none => .threw .ConfigurationError
        | some startDirection =>
          constructSegments (World.mk0 { width := width, height := height }
            { x := foodX, y := foodY }) startDirection { rest := rest, failbit := false } := by
  have e1 := extractChar_first w
    (' ' :: (renderInt width ++ (' ' :: (renderInt height ++ (' ' :: f :: ' ' ::
      (renderInt foodX ++ (' ' :: (renderInt foodY ++ (' ' :: s :: ' ' :: d :: rest))))))))) hw
  have e2 := extractInt_render width
    (' ' :: (renderInt height ++ (' ' :: f :: ' ' ::
      (renderInt foodX ++ (' ' :: (renderInt foodY ++ (' ' :: s :: ' ' :: d :: rest)))))))
    hwidth (head_blank _)
  have e3 := extractInt_render height
    (' ' :: f :: ' ' ::
      (renderInt foodX ++ (' ' :: (renderInt foodY ++ (' ' :: s :: ' ' :: d :: rest)))))
    hheight (head_blank _)
  have e4 := extractChar_blank f
    (' ' :: (renderInt foodX ++ (' ' :: (renderInt foodY ++ (' ' :: s :: ' ' :: d :: rest))))) hf
  have e5 := extractInt_render foodX
    (' ' :: (renderInt foodY ++ (' ' :: s :: ' ' :: d :: rest))) hfoodX (head_blank _)
  have e6 := extractInt_render foodY (' ' :: s :: ' ' :: d :: rest) hfoodY (head_blank _)
  have e7 := extractChar_blank s (' ' :: d :: rest) hs
  have e8 := extractChar_blank d rest hd
  simp only [Controller.construct, renderHeader, String.toList, List.cons_append,
    List.append_assoc, e1, e2, e3, e4, e5, e6, e7, e8]


theorem headingChar_spec (d : Direction) :
    isspace (headingChar d) = false ∧ startDirectionOf (headingChar d) = some d := by
  cases d <;> exact ⟨by decide, by decide⟩

/-- The constructor on a well-formed configuration. -/
theorem construct_renderConfig (width height foodX foodY : Int) (d : Direction)
    (segments : List Position)
    (hwidth : isInt width) (hheight : isInt height) (hfoodX : isInt foodX)
    (hfoodY : isInt foodY) (hcount : isInt segments.length)
    (hsegments : ∀ p ∈ segments, isInt p.x ∧ isInt p.y) :
    Controller.construct (renderConfig width height foodX foodY d segments) =
      .constructed
        { m_world :=
            { m_foodPosition := { x := foodX, y := foodY },
              m_dimension := { width := width, height := height } },
          m_segments := { m_headDirection := d, m_segments := segments },
          m_paused := false } := by
  have hlen := extractInt_render segments.length (renderSegments segments) hcount
    (renderSegments_head segments)
  have hread := readSegments_render segments (Segments.mk0 d) hsegments
  have hnonneg : ¬ ((segments.length : Int) < 0) := by omega
  rw [renderConfig, construct_renderHeader _ _ _ _ _ _ _ _ _ (by decide) (by decide) (by decide)
    (headingChar_spec d).1 hwidth hheight hfoodX hfoodY]
  simp only [Segments.mk0, List.nil_append] at hread
  simp only [ne_eq, not_true_eq_false, if_false, (headingChar_spec d).2, constructSegments,
    List.cons_append, hlen, hnonneg, Int.toNat_ofNat, Segments.mk0, hread, World.mk0]

/-! ## Construction -/

/-- C11: for every well-formed configuration `W width height F foodX foodY S d n x1 y1 ... xn
yn` (single blanks, numbers that fit an `int`, `d` one of U, D, L, R, `n` the number of pairs
listed) the constructor succeeds, and the body of the constructed segments has exactly `n`
positions, namely (x1,y1), ..., (xn,yn) in the declared order, front to back. -/
theorem C11_construct_reads_segments_in_order (width height foodX foodY : Int) (d : Direction)
    (segments : List Position)
    (hwidth : isInt width) (hheight : isInt height) (hfoodX : isInt foodX)
    (hfoodY : isInt foodY) (hcount : isInt segments.length)
    (hsegments : ∀ p ∈ segments, isInt p.x ∧ isInt p.y) :
    ∃ c, Controller.construct (renderConfig width height foodX foodY d segments) =
        .constructed c ∧
      c.m_segments.m_segments = segments ∧
      c.m_segments.m_segments.length = segments.length ∧
      c.m_segments.m_headDirection = d ∧
      c.m_world.m_dimension = { width := width, height := height } ∧
      c.m_world.m_foodPosition = { x := foodX, y := foodY } ∧
      c.m_paused = false :=
  ⟨_, construct_renderConfig width height foodX foodY d segments hwidth hheight hfoodX hfoodY
    hcount hsegments, rfl, rfl, rfl, rfl, rfl, rfl⟩

/-- Witness of C11: the configuration `W 5 5 F 3 3 S R 2 1 1 2 1`. -/
theorem C11_construct_reads_segments_in_order_witness :
    renderConfig 5 5 3 3 .Direction_RIGHT [{ x := 1, y := 1 }, { x := 2, y := 1 }] =
        "W 5 5 F 3 3 S R 2 1 1 2 1" ∧
      ∃ c, Controller.construct
          (renderConfig 5 5 3 3 .Direction_RIGHT [{ x := 1, y := 1 }, { x := 2, y := 1 }]) =
          .constructed c ∧
        c.m_segments.m_segments = [{ x := 1, y := 1 }, { x := 2, y := 1 }] ∧
        c.m_segments.m_segments.length =
          ([{ x := 1, y := 1 }, { x := 2, y := 1 }] : List Position).length ∧
        c.m_segments.m_headDirection = .Direction_RIGHT ∧
        c.m_world.m_dimension = { width := 5, height := 5 } ∧
        c.m_world.m_foodPosition = { x := 3, y := 3 } ∧
        c.m_paused = false :=
  ⟨by decide,
    C11_construct_reads_segments_in_order 5 5 3 3 .Direction_RIGHT
      [{ x := 1, y := 1 }, { x := 2, y := 1 }] (by decide) (by decide) (by decide) (by decide)
      (by decide) (by decide)⟩

/-- C12: a configuration whose bounds marker is not `W`, or whose food marker is not `F`, or
whose score marker is not `S`, or whose heading character is none of U, D, L, R makes the
constructor throw the configuration error, whatever follows the heading character; the items
are separated by single blanks, the markers are not white space and the numbers fit an
`int`.  For a wrong bounds marker this holds whatever follows the marker. -/
theorem C12_construct_rejects_bad_markers (w : Char) (width height : Int) (f : Char)
    (foodX foodY : Int) (s d : Char) (rest : List Char)
    (hw : isspace w = false) (hf : isspace f = false) (hs : isspace s = false)
    (hd : isspace d = false)
    (hwidth : isInt width) (hheight : isInt height) (hfoodX : isInt foodX)
    (hfoodY : isInt foodY)
    (hbad : w ≠ 'W' ∨ f ≠ 'F' ∨ s ≠ 'S' ∨ (d ≠ 'U' ∧ d ≠ 'D' ∧ d ≠ 'L' ∧ d ≠ 'R')) :
    Controller.construct (renderHeader w width height f foodX foodY s d rest) =
        .threw .ConfigurationError ∧
      (w ≠ 'W' → ∀ text : List Char,
        Controller.construct (String.mk (w :: text)) = .threw .ConfigurationError) := by
  constructor
  · rw [construct_renderHeader w width height f foodX foodY s d rest hw hf hs hd hwidth hheight
      hfoodX hfoodY]
    by_cases h1 : w = 'W'
    · by_cases h2 : f = 'F'
      · by_cases h3 : s = 'S'
        · have h4 : d ≠ 'U' ∧ d ≠ 'D' ∧ d ≠ 'L' ∧ d ≠ 'R' := by tauto
          simp [h1, h2, h3, startDirectionOf, h4.1, h4.2.1, h4.2.2.1, h4.2.2.2]
        · simp [h1, h2, h3]
      · simp [h1, h2]
    · simp [h1]
  · intro h1 text
    simp only [Controller.construct, String.toList, extractChar_first w text hw, ne_eq, h1,
      not_false_eq_true, if_true]

/-- Witness of C12: the configuration `W 5 5 F 3 3 S X 2 1 1 2 1` with the heading
character X. -/
theorem C12_construct_rejects_bad_markers_witness :
    renderHeader 'W' 5 5 'F' 3 3 'S' 'X' " 2 1 1 2 1".toList = "W 5 5 F 3 3 S X 2 1 1 2 1" ∧
      Controller.construct (renderHeader 'W' 5 5 'F' 3 3 'S' 'X' " 2 1 1 2 1".toList) =
        .threw .ConfigurationError ∧
      (('W' : Char) ≠ 'W' → ∀ text : List Char,
        Controller.construct (String.mk ('W' :: text)) = .threw .ConfigurationError) :=
  ⟨by decide,
    C12_construct_rejects_bad_markers 'W' 5 5 'F' 3 3 'S' 'X' " 2 1 1 2 1".toList (by decide)
      (by decide) (by decide) (by decide) (by decide) (by decide) (by decide) (by decide)
      (by decide)⟩

end Snake
